import Mathlib

/-!
Verification of the Feed Recommendation Core (TalentPitch RecommendationService).

This file is a shallow embedding, in Lean 4, of the parts of the Python source
that the verified claims are about:

* `src/api/endpoints.py` — `parse_excluded_ids`, `reload_data`;
* `src/services/data_service.py` — `DataService.load_all_data`;
* `src/services/recommendation.py` — `BanditContextualAdaptativo`
  (`actualizar`, `_calcular_exploracion_adaptativa`, the LinUCB state),
  the candidate-pool selectors (`_seleccionar_vmp_rapido`, `_seleccionar_nu_rapido`,
  `_seleccionar_au_rapido`, `_seleccionar_flows`, `_seleccionar_boost_exploracion`),
  the assembler `generar_scroll_infinito` with its diversity window, and the
  flows-only selector `_seleccionar_flows_para_usuario`.

Modelling conventions, used throughout:

* Python `set` objects are modelled as duplicate-free `List`s.  Only membership,
  cardinality and difference of these sets are ever observed by the code, so the
  iteration order of a `List`-set is never significant below; `pyAdd`/`pySet`
  implement `set.add`/`set(...)` as first-occurrence deduplication.
* Python float arithmetic is idealised: the bandit (NumPy linear algebra) is
  embedded over `ℝ`, and the feed-assembly scores (which only ever influence the
  *order* of candidates) over `ℚ`.
* Calls into NumPy's random generator, the transcendental score columns
  (`np.log1p` / `np.exp` precomputations) and the cosine-similarity feature are
  inherently real-valued per-process data; they enter the assembly computation
  only as opaque values and are threaded in explicitly as parameters, so that a
  theorem quantifying over them covers every random draw and every snapshot.
* Fallible Python code (statements that can raise) returns `Except`/`Option`.
-/

namespace RecSys

/-! ## Python set / list primitives -/

/-- Python `set.add x`: append `x` unless already present (sets are modelled as
duplicate-free lists; only membership / cardinality / difference are observed). -/
def pyAdd [DecidableEq α] (l : List α) (x : α) : List α :=
  if x ∈ l then l else l ++ [x]

/-- Python `set(xs)`: deduplicate a list, keeping first occurrences. -/
def pySet [DecidableEq α] (l : List α) : List α :=
  l.foldl pyAdd []

/-- Python `s.update(t)` / `s | t` on sets. -/
def pyUnion [DecidableEq α] (a b : List α) : List α :=
  b.foldl pyAdd a

/-- Python `a - b` on sets (difference). -/
def pySetDiff [DecidableEq α] (a b : List α) : List α :=
  a.filter (fun x => decide (x ∉ b))

theorem mem_pyAdd [DecidableEq α] {l : List α} {x y : α} :
    y ∈ pyAdd l x ↔ y ∈ l ∨ y = x := by
  unfold pyAdd
  by_cases h : x ∈ l
  · simp only [h, if_true]
    constructor
    · intro hy; exact Or.inl hy
    · rintro (hy | rfl) <;> [exact hy; exact h]
  · simp [h]

theorem mem_foldl_pyAdd [DecidableEq α] (b : List α) (a : List α) (y : α) :
    y ∈ b.foldl pyAdd a ↔ y ∈ a ∨ y ∈ b := by
  induction b generalizing a with
  | nil => simp
  | cons x xs ih =>
      simp only [List.foldl_cons, ih, mem_pyAdd, List.mem_cons]
      tauto

theorem mem_pySet [DecidableEq α] (l : List α) (y : α) :
    y ∈ pySet l ↔ y ∈ l := by
  unfold pySet; rw [mem_foldl_pyAdd]; simp

theorem mem_pyUnion [DecidableEq α] (a b : List α) (y : α) :
    y ∈ pyUnion a b ↔ y ∈ a ∨ y ∈ b := by
  unfold pyUnion; exact mem_foldl_pyAdd b a y

theorem nodup_pyAdd [DecidableEq α] {l : List α} (h : l.Nodup) (x : α) :
    (pyAdd l x).Nodup := by
  unfold pyAdd
  by_cases hx : x ∈ l
  · simp [hx, h]
  · simp [hx, List.nodup_append, h]

/-- Stable insertion (descending by `key`): models the tie behaviour of
`pandas.nlargest` (`keep='first'`): an element goes before the first element of
strictly smaller key, so equal keys preserve the original order. -/
def insertarDesc (key : α → ℚ) (x : α) : List α → List α
  | [] => [x]
  | y :: ys => if key x < key y then y :: insertarDesc key x ys else x :: y :: ys

/-- Stable descending sort by `key` (insertion sort). -/
def ordenarDesc (key : α → ℚ) : List α → List α
  | [] => []
  | x :: xs => insertarDesc key x (ordenarDesc key xs)

/-- `df.nlargest(k, col)`: the `k` rows of largest `key`, ties kept in
first-occurrence order. -/
def nlargestBy (key : α → ℚ) (k : Nat) (l : List α) : List α :=
  (ordenarDesc key l).take k

theorem mem_insertarDesc (key : α → ℚ) (x : α) (l : List α) (y : α) :
    y ∈ insertarDesc key x l ↔ y = x ∨ y ∈ l := by
  induction l with
  | nil => simp [insertarDesc]
  | cons z zs ih =>
      unfold insertarDesc
      by_cases h : key x < key z
      · simp only [h, if_true, List.mem_cons, ih]
        try tauto
      · simp only [h, if_false, List.mem_cons]
        try tauto

theorem mem_ordenarDesc (key : α → ℚ) (l : List α) (y : α) :
    y ∈ ordenarDesc key l ↔ y ∈ l := by
  induction l with
  | nil => simp [ordenarDesc]
  | cons z zs ih => simp [ordenarDesc, mem_insertarDesc, ih]

theorem mem_nlargestBy (key : α → ℚ) (k : Nat) (l : List α) (y : α)
    (h : y ∈ nlargestBy key k l) : y ∈ l := by
  unfold nlargestBy at h
  exact (mem_ordenarDesc key l y).mp (List.take_subset k _ h)

/-- Python `int(float(q))`: truncation toward zero. -/
def pyIntTrunc (q : ℚ) : Int :=
  q.num.tdiv q.den

/-- Python `round(q, dp)` (to `dp` decimal places).  Python uses banker's
rounding on floats; the claims verified here never inspect a rounded value at a
half-way point, so `round` (half-up) is an adequate model. -/
def pyRound (dp : Nat) (q : ℚ) : ℚ :=
  (round (q * 10 ^ dp) : ℤ) / 10 ^ dp

/-- Arithmetic mean of a list of rationals (`np.mean`). -/
def listMean (l : List ℚ) : ℚ :=
  l.sum / l.length

/-! ## `parse_excluded_ids` (src/api/endpoints.py, lines 93–112)

Python strings are processed through their character lists (`String.data`),
because the claims require executable (kernel-evaluable) definitions and the
byte-level core `String` primitives do not reduce. -/

/-- Python `str.strip()` (whitespace at both ends). -/
def pyStrip (cs : List Char) : List Char :=
  ((cs.dropWhile Char.isWhitespace).reverse.dropWhile Char.isWhitespace).reverse

/-- Python `str.isdigit()` on one character.  CPython accepts every character
with the Unicode digit property — the decimal digits *and* non-decimal digit
characters such as the superscripts, which `int()` rejects.  The class is
modelled exactly on the Latin-1 range: ASCII `'0'`–`'9'` plus `'¹'`, `'²'`,
`'³'` (the only further Latin-1 digit-property characters); the theorems below
quantify over strings only up to this modelled range. -/
def pyIsDigitChar (c : Char) : Bool :=
  c.isDigit || decide (c ∈ ['¹', '²', '³'])

/-- Python `str.isdigit()`: nonempty and all digit-property characters. -/
def pyIsDigitStr (cs : List Char) : Bool :=
  !cs.isEmpty && cs.all pyIsDigitChar

/-- Python `str.split(',')`. -/
def pySplitComma : List Char → List Char → List (List Char)
  | [], acc => [acc.reverse]
  | c :: rest, acc =>
      if c = ',' then acc.reverse :: pySplitComma rest []
      else pySplitComma rest (c :: acc)

/-- Value of decimal digits (helper for `int(str)`). -/
def digitsToNat (cs : List Char) : Nat :=
  cs.foldl (fun n c => n * 10 + (c.toNat - 48)) 0

/-- The digit body of a CPython integer literal: ASCII decimal digits with
single underscore separators allowed strictly *between* digits (`1_2` parses,
`_1`, `1_`, `1__2` raise).  Non-decimal digit-property characters such as `'²'`
are not accepted — `int('²')` raises `ValueError` even though
`'²'.isdigit()` is `True`. -/
def pyDigitsUnd : List Char → Bool
  | [] => false
  | [c] => c.isDigit
  | c :: d :: rest =>
      if d = '_' then c.isDigit && pyDigitsUnd rest
      else c.isDigit && pyDigitsUnd (d :: rest)

/-- Parse an integer-literal digit body (underscores stripped), else fail. -/
def pyIntOfDigits (cs : List Char) : Option Nat :=
  if pyDigitsUnd cs then
    some (digitsToNat (cs.filter (fun c => !decide (c = '_'))))
  else none

/-- Python `int(s)` for a string `s`: optional surrounding whitespace, optional
sign, then an ASCII decimal-digit body with underscore separators; anything
else raises `ValueError` (`none` here). -/
def pyIntOfString (cs : List Char) : Option Int :=
  match pyStrip cs with
  | [] => none
  | c :: rest =>
      if c = '-' then (pyIntOfDigits rest).map (fun n => -(n : Int))
      else if c = '+' then (pyIntOfDigits rest).map (fun n => (n : Int))
      else (pyIntOfDigits (c :: rest)).map (fun n => (n : Int))

/-- Whether every character of a string is ASCII: the range on which the
`isdigit`/`int` models above are exact and on which the string branch of
`parse_excluded_ids` is provably raise-free. -/
def isAsciiStr (s : String) : Bool :=
  s.data.all (fun c => decide (c.toNat < 128))

/-- A member of a Python list passed as `excluded_ids`: an `int`, a `str`, or
any other value (the code filters with `isinstance(x, (int, str))`). -/
inductive ExcludedElem
  | intElem (n : Int)
  | strElem (s : String)
  | otherElem
deriving DecidableEq

/-- The possible Python values of the `excluded_ids` argument:
`None`, a string, a list, or any other value. -/
inductive ExcludedIdsInput
  | vNone
  | vStr (s : String)
  | vList (xs : List ExcludedElem)
  | vOther
deriving DecidableEq

/-- List-comprehension evaluation that raises (returns `none`) as soon as one
element raises. -/
def optionMapAll (f : α → Option β) : List α → Option (List β)
  | [] => some []
  | x :: xs =>
      match f x, optionMapAll f xs with
      | some y, some ys => some (y :: ys)
      | _, _ => none

/-- `parse_excluded_ids` (src/api/endpoints.py).  Faithful to the source:

* `None` → `[]`;
* a nonempty string → `[int(x) for x in s.split(',') if x.strip().isdigit()]`
  (an empty string is falsy and falls through to the final `return []`);
* a list → `[int(x) for x in xs if isinstance(x, (int, str))]` — note that
  `int(x)` is applied to *string* elements without any digit check, so a
  non-numeric string element raises `ValueError` (modelled as `Except.error`);
* any other value → `[]`. -/
def parse_excluded_ids : ExcludedIdsInput → Except String (List Int)
  | .vNone => .ok []
  | .vStr s =>
      if s = "" then .ok []
      else
        let tokens := pySplitComma s.data []
        let kept := tokens.filter (fun t => pyIsDigitStr (pyStrip t))
        match optionMapAll (fun t => pyIntOfString t) kept with
        | some l => .ok l
        | none => .error "ValueError: invalid literal for int"
  | .vList xs =>
      let kept := xs.filter (fun e =>
        match e with
        | .intElem _ => true
        | .strElem _ => true
        | .otherElem => false)
      match optionMapAll (fun e =>
          match e with
          | .intElem n => some n
          | .strElem s => pyIntOfString s.data
          | .otherElem => none) kept with
      | some l => .ok l
      | none => .error "ValueError: invalid literal for int"
  | .vOther => .ok []

/-- Whether a list element survives `int(x)`: `int` elements and parseable
strings do; `isinstance` filters other values out before `int` is applied. -/
def listElemParses : ExcludedElem → Bool
  | .intElem _ => true
  | .strElem s => (pyIntOfString s.data).isSome
  | .otherElem => true

theorem mem_dropWhile_imp {α : Type} {p : α → Bool} :
    ∀ {l : List α} {c : α}, c ∈ l.dropWhile p → c ∈ l := by
  intro l
  induction l with
  | nil =>
      intro c h
      simpa using h
  | cons x xs ih =>
      intro c h
      by_cases hp : p x = true
      · rw [List.dropWhile_cons, if_pos hp] at h
        exact List.mem_cons_of_mem x (ih h)
      · rw [List.dropWhile_cons, if_neg hp] at h
        exact h

/-- `strip` only removes characters. -/
theorem mem_pyStrip {t : List Char} {c : Char} (h : c ∈ pyStrip t) : c ∈ t := by
  unfold pyStrip at h
  rw [List.mem_reverse] at h
  have h1 := mem_dropWhile_imp h
  rw [List.mem_reverse] at h1
  exact mem_dropWhile_imp h1

/-- Every character of a comma-split token comes from the split string (or the
accumulator). -/
theorem mem_pySplitComma : ∀ (cs acc t : List Char),
    t ∈ pySplitComma cs acc → ∀ c ∈ t, c ∈ cs ∨ c ∈ acc := by
  intro cs
  induction cs with
  | nil =>
      intro acc t ht c hc
      simp only [pySplitComma, List.mem_singleton] at ht
      subst ht
      rw [List.mem_reverse] at hc
      exact Or.inr hc
  | cons c0 rest ih =>
      intro acc t ht c hc
      unfold pySplitComma at ht
      by_cases h0 : c0 = ','
      · rw [if_pos h0] at ht
        rcases List.mem_cons.mp ht with rfl | ht'
        · rw [List.mem_reverse] at hc
          exact Or.inr hc
        · rcases ih [] t ht' c hc with h | h
          · exact Or.inl (List.mem_cons_of_mem c0 h)
          · simp at h
      · rw [if_neg h0] at ht
        rcases ih (c0 :: acc) t ht c hc with h | h
        · exact Or.inl (List.mem_cons_of_mem c0 h)
        · rcases List.mem_cons.mp h with rfl | h
          · exact Or.inl (List.mem_cons_self _ _)
          · exact Or.inr h

/-- On ASCII characters the modelled digit class is exactly `'0'`–`'9'`. -/
theorem pyIsDigitChar_ascii {c : Char} (ha : c.toNat < 128)
    (h : pyIsDigitChar c = true) : c.isDigit = true := by
  unfold pyIsDigitChar at h
  simp only [Bool.or_eq_true, decide_eq_true_eq] at h
  rcases h with h | h
  · exact h
  · simp only [List.mem_cons, List.not_mem_nil, or_false] at h
    rcases h with rfl | rfl | rfl <;> exact absurd ha (by decide)

/-- A nonempty run of plain decimal digits is a valid integer-literal body. -/
theorem pyDigitsUnd_of_all_digits : ∀ (cs : List Char), cs ≠ [] →
    (∀ c ∈ cs, c.isDigit = true) → pyDigitsUnd cs = true
  | [], hne, _ => absurd rfl hne
  | [c], _, h => by
      have := h c (by simp)
      simpa [pyDigitsUnd] using this
  | c :: d :: rest, _, h => by
      have hd : d.isDigit = true := h d (by simp)
      have hu : ¬ d = '_' := by
        intro he
        rw [he] at hd
        exact absurd hd (by decide)
      have hc : c.isDigit = true := h c (by simp)
      have ih := pyDigitsUnd_of_all_digits (d :: rest) (by simp)
        (fun x hx => h x (List.mem_cons_of_mem c hx))
      unfold pyDigitsUnd
      rw [if_neg hu]
      simp [hc, ih]

/-- A token whose stripped form is ASCII and passes `isdigit` survives
`int()`. -/
theorem pyIntOfString_of_ascii_isdigit {t : List Char}
    (ha : ∀ c ∈ pyStrip t, c.toNat < 128)
    (h : pyIsDigitStr (pyStrip t) = true) : (pyIntOfString t).isSome = true := by
  unfold pyIntOfString
  unfold pyIsDigitStr at h
  rcases hs : pyStrip t with _ | ⟨c, rest⟩
  · rw [hs] at h; simp at h
  · rw [hs] at h
    rw [hs] at ha
    simp only [Bool.and_eq_true, List.all_eq_true, List.isEmpty_cons,
      Bool.not_false] at h
    have hdig : ∀ x ∈ c :: rest, x.isDigit = true := by
      intro x hx
      exact pyIsDigitChar_ascii (ha x hx) (h.2 x hx)
    have hc : c.isDigit = true := hdig c (by simp)
    have hcm : ¬ c = '-' := by
      intro hEq; rw [hEq] at hc; exact absurd hc (by decide)
    have hcp : ¬ c = '+' := by
      intro hEq; rw [hEq] at hc; exact absurd hc (by decide)
    simp only [hcm, hcp, if_false]
    unfold pyIntOfDigits
    have hund : pyDigitsUnd (c :: rest) = true :=
      pyDigitsUnd_of_all_digits (c :: rest) (by simp) hdig
    simp [hund]

theorem optionMapAll_isSome (f : α → Option β) (l : List α)
    (h : ∀ x ∈ l, (f x).isSome = true) : (optionMapAll f l).isSome = true := by
  induction l with
  | nil => simp [optionMapAll]
  | cons x xs ih =>
      unfold optionMapAll
      have hx := h x (by simp)
      have hxs := ih (fun y hy => h y (List.mem_cons_of_mem x hy))
      rcases hfx : f x with _ | y
      · rw [hfx] at hx; simp at hx
      · rcases hrest : optionMapAll f xs with _ | ys
        · rw [hrest] at hxs; simp at hxs
        · simp

/-! ## `DataService.load_all_data` (src/services/data_service.py, lines 100–126)

`DataService` is a process-wide singleton; `reload_data` (src/api/endpoints.py,
lines 499–515) resets the module-level handle and re-runs `load_all_data` on
the *same* singleton object (its `__new__` returns the existing instance and
`__init__` early-returns), so the five DataFrame attributes of the snapshot in
use are re-assigned one at a time, in a fixed order.  The five table loads are
modelled by their results: `some t` for a load producing table `t`, `none` for
a load step that raises. -/

/-- The five DataFrame attributes of the `DataService` snapshot. -/
structure DataTables (α : Type) where
  users_df : α
  videos_df : α
  interactions_df : α
  connections_df : α
  flows_df : α
deriving DecidableEq

/-- The results of the five load steps, in execution order. -/
structure LoadResults (α : Type) where
  users : Option α
  videos : Option α
  interactions : Option α
  connections : Option α
  flows : Option α
deriving DecidableEq

/-- `load_all_data`: assign `self.users_df`, `self.videos_df`,
`self.interactions_df`, `self.connections_df`, `self.flows_df` in that order;
a failing step propagates the exception (`false`), leaving the attributes
already assigned with their *new* values and the later ones with their old
values.  Returns the final attribute state together with the success flag. -/
def load_all_data (s : DataTables α) (r : LoadResults α) : DataTables α × Bool :=
  match r.users with
  | none => (s, false)
  | some u =>
    let s := { s with users_df := u }
    match r.videos with
    | none => (s, false)
    | some v =>
      let s := { s with videos_df := v }
      match r.interactions with
      | none => (s, false)
      | some i =>
        let s := { s with interactions_df := i }
        match r.connections with
        | none => (s, false)
        | some c =>
          let s := { s with connections_df := c }
          match r.flows with
          | none => (s, false)
          | some f => ({ s with flows_df := f }, true)

/-! ## `BanditContextualAdaptativo` (src/services/recommendation.py, lines 18–142)

NumPy float arithmetic is idealised over `ℝ`.  The class-level constants keep
their source names and values. -/

/-- `RIDGE_REGULARIZATION = 0.001`. -/
noncomputable def RIDGE_REGULARIZATION : ℝ := 1 / 1000

/-- `MIN_HISTORY_FOR_ADAPTATION = 10`. -/
def MIN_HISTORY_FOR_ADAPTATION : Nat := 10

/-- `RECENT_REWARDS_WINDOW = 50`. -/
def RECENT_REWARDS_WINDOW : Nat := 50

/-- `MAX_HISTORY_SIZE = 1000`. -/
def MAX_HISTORY_SIZE : Nat := 1000

/-- `HISTORY_TRIM_SIZE = 500`. -/
def HISTORY_TRIM_SIZE : Nat := 500

/-- State of a `BanditContextualAdaptativo(n_features, alpha, beta)` instance. -/
structure Bandit (n : Nat) where
  alpha : ℝ
  beta : ℝ
  A : Matrix (Fin n) (Fin n) ℝ
  b : Fin n → ℝ
  theta : Fin n → ℝ
  A_inv : Matrix (Fin n) (Fin n) ℝ
  historial_recompensas : List ℝ
  historial_contextos : List (Fin n → ℝ)

/-- `__init__`: `A = I`, `b = 0`, `theta = 0`, `A_inv = I`, empty histories. -/
noncomputable def banditInit (n : Nat) (alpha beta : ℝ) : Bandit n where
  alpha := alpha
  beta := beta
  A := 1
  b := 0
  theta := 0
  A_inv := 1
  historial_recompensas := []
  historial_contextos := []

/-- `actualizar(contexto, recompensa)`: `A += np.outer(x, x)`, `b += r·x`,
`A_inv = inv(A + RIDGE_REGULARIZATION·I)`, append `(x, r)` to the histories and,
if the reward history now exceeds `MAX_HISTORY_SIZE`, keep only the last
`HISTORY_TRIM_SIZE` entries of both histories (`l[-500:]`). -/
noncomputable def actualizar {n : Nat} (s : Bandit n) (contexto : Fin n → ℝ)
    (recompensa : ℝ) : Bandit n :=
  let A := s.A + Matrix.vecMulVec contexto contexto
  let b := s.b + recompensa • contexto
  let A_inv := (A + RIDGE_REGULARIZATION • (1 : Matrix (Fin n) (Fin n) ℝ))⁻¹
  let hr := s.historial_recompensas ++ [recompensa]
  let hc := s.historial_contextos ++ [contexto]
  if MAX_HISTORY_SIZE < hr.length then
    { s with
      A := A, b := b, A_inv := A_inv,
      historial_recompensas := hr.drop (hr.length - HISTORY_TRIM_SIZE),
      historial_contextos := hc.drop (hc.length - HISTORY_TRIM_SIZE) }
  else
    { s with
      A := A, b := b, A_inv := A_inv,
      historial_recompensas := hr,
      historial_contextos := hc }

/-- `np.var`: population variance (mean of squared deviations). -/
noncomputable def npVar (l : List ℝ) : ℝ :=
  ((l.map (fun x => (x - l.sum / l.length) ^ 2)).sum) / l.length

/-- `_calcular_exploracion_adaptativa(contextos)`: with fewer than
`MIN_HISTORY_FOR_ADAPTATION` observed rewards, the constant `0.7` broadcast to
`len(contextos)` entries; otherwise
`beta · np.var(historial_recompensas[-50:]) · 1.3 · np.random.uniform(0,1,m)`.
The uniform draws are the stream consumed from NumPy's RNG and are passed in as
`draws`; `m = len(contextos)` is all the function reads from its argument. -/
noncomputable def calcular_exploracion_adaptativa {n : Nat} (s : Bandit n)
    (m : Nat) (draws : Fin m → ℝ) : Fin m → ℝ :=
  if s.historial_recompensas.length < MIN_HISTORY_FOR_ADAPTATION then
    fun _ => 0.7
  else
    let recompensas_recientes :=
      s.historial_recompensas.drop
        (s.historial_recompensas.length - RECENT_REWARDS_WINDOW)
    let varianza_recompensas := npVar recompensas_recientes
    let factor_exploracion := s.beta * varianza_recompensas * 1.3
    fun i => factor_exploracion * draws i

/-- `seleccionar_lote(contextos)`: the UCB score vector
`X·θ + α·sqrt(rowwise(X·A⁻¹·Xᵀ)) + adaptiveBonus`, with `θ = A_inv·b` recomputed
at call time.  (The assignment `self.theta = ...` only caches this vector.) -/
noncomputable def seleccionar_lote {n : Nat} (s : Bandit n) (m : Nat)
    (contextos : Fin m → Fin n → ℝ) (draws : Fin m → ℝ) : Fin m → ℝ :=
  let theta := s.A_inv.mulVec s.b
  fun i =>
    Matrix.dotProduct (contextos i) theta +
      s.alpha * Real.sqrt
        (Matrix.dotProduct (contextos i) (s.A_inv.mulVec (contextos i))) +
      calcular_exploracion_adaptativa s m draws i

/-- The expected-reward component `x·θ` of the UCB score, with `θ = A_inv·b`
recomputed from the stored `A_inv` and `b` as `seleccionar_lote` does. -/
noncomputable def predictedScore {n : Nat} (s : Bandit n) (x : Fin n → ℝ) : ℝ :=
  Matrix.dotProduct x (s.A_inv.mulVec s.b)

/-- Bandit states reachable from a fresh instance by a sequence of updates. -/
inductive Reachable {n : Nat} : Bandit n → Prop
  | init (alpha beta : ℝ) : Reachable (banditInit n alpha beta)
  | step {s : Bandit n} (x : Fin n → ℝ) (r : ℝ) :
      Reachable s → Reachable (actualizar s x r)

theorem actualizar_A {n : Nat} (s : Bandit n) (x : Fin n → ℝ) (r : ℝ) :
    (actualizar s x r).A = s.A + Matrix.vecMulVec x x := by
  simp only [actualizar]
  split <;> rfl

theorem actualizar_b {n : Nat} (s : Bandit n) (x : Fin n → ℝ) (r : ℝ) :
    (actualizar s x r).b = s.b + r • x := by
  simp only [actualizar]
  split <;> rfl

theorem actualizar_A_inv {n : Nat} (s : Bandit n) (x : Fin n → ℝ) (r : ℝ) :
    (actualizar s x r).A_inv =
      (s.A + Matrix.vecMulVec x x +
        RIDGE_REGULARIZATION • (1 : Matrix (Fin n) (Fin n) ℝ))⁻¹ := by
  simp only [actualizar]
  split <;> rfl

theorem actualizar_hist {n : Nat} (s : Bandit n) (x : Fin n → ℝ) (r : ℝ) :
    (actualizar s x r).historial_recompensas =
      (if MAX_HISTORY_SIZE < (s.historial_recompensas ++ [r]).length then
        (s.historial_recompensas ++ [r]).drop
          ((s.historial_recompensas ++ [r]).length - HISTORY_TRIM_SIZE)
      else s.historial_recompensas ++ [r]) := by
  simp only [actualizar]
  by_cases h : MAX_HISTORY_SIZE < (s.historial_recompensas ++ [r]).length
  · simp only [h, if_true]
  · simp only [h, if_false]

theorem actualizar_hist_ctx {n : Nat} (s : Bandit n) (x : Fin n → ℝ) (r : ℝ) :
    (actualizar s x r).historial_contextos =
      (if MAX_HISTORY_SIZE < (s.historial_recompensas ++ [r]).length then
        (s.historial_contextos ++ [x]).drop
          ((s.historial_contextos ++ [x]).length - HISTORY_TRIM_SIZE)
      else s.historial_contextos ++ [x]) := by
  simp only [actualizar]
  by_cases h : MAX_HISTORY_SIZE < (s.historial_recompensas ++ [r]).length
  · simp only [h, if_true]
  · simp only [h, if_false]

/-- Both histories of a reachable bandit have equal length, at most 1000. -/
theorem reachable_hist_len {n : Nat} {s : Bandit n} (hs : Reachable s) :
    s.historial_recompensas.length ≤ MAX_HISTORY_SIZE ∧
      s.historial_contextos.length = s.historial_recompensas.length := by
  induction hs with
  | init alpha beta => simp [banditInit]
  | @step t x r _hr ih =>
      rw [actualizar_hist, actualizar_hist_ctx]
      have h1 := ih.1
      have h2 := ih.2
      simp only [MAX_HISTORY_SIZE, HISTORY_TRIM_SIZE] at h1 ⊢
      split_ifs with h <;>
        simp only [MAX_HISTORY_SIZE, HISTORY_TRIM_SIZE, List.length_drop,
          List.length_append, List.length_singleton] at h ⊢ <;>
        omega

/-! ### Structure of reachable bandit matrices

`A` is always `I` plus a sum of outer products `x·xᵀ` of update contexts, so
`A + RIDGE_REGULARIZATION·I` is positive definite; this justifies the matrix
inversions performed by `actualizar`. -/

/-- The ridge-regularised matrix `A + RIDGE_REGULARIZATION·I` inverted by
`actualizar`. -/
noncomputable def Mreg {n : Nat} (A : Matrix (Fin n) (Fin n) ℝ) :
    Matrix (Fin n) (Fin n) ℝ :=
  A + RIDGE_REGULARIZATION • (1 : Matrix (Fin n) (Fin n) ℝ)

/-- Sum of the outer products `np.outer(x, x)` accumulated into `A`. -/
noncomputable def sumOuters {n : Nat} (l : List (Fin n → ℝ)) :
    Matrix (Fin n) (Fin n) ℝ :=
  (l.map (fun x => Matrix.vecMulVec x x)).sum

theorem sumOuters_nil {n : Nat} : sumOuters ([] : List (Fin n → ℝ)) = 0 := rfl

theorem sumOuters_cons {n : Nat} (x : Fin n → ℝ) (l : List (Fin n → ℝ)) :
    sumOuters (x :: l) = Matrix.vecMulVec x x + sumOuters l := by
  simp [sumOuters]

theorem vecMulVec_mulVec_eq {n : Nat} (w u v : Fin n → ℝ) :
    (Matrix.vecMulVec w u).mulVec v = Matrix.dotProduct u v • w := by
  funext i
  simp [Matrix.vecMulVec_apply, Matrix.mulVec, Matrix.dotProduct,
    Finset.mul_sum, mul_assoc, mul_comm, mul_left_comm]

theorem dotProduct_self_nonneg {n : Nat} (v : Fin n → ℝ) :
    0 ≤ Matrix.dotProduct v v := by
  unfold Matrix.dotProduct
  exact Finset.sum_nonneg fun i _ => mul_self_nonneg (v i)

theorem quad_sumOuters_nonneg {n : Nat} (l : List (Fin n → ℝ)) (v : Fin n → ℝ) :
    0 ≤ Matrix.dotProduct v ((sumOuters l).mulVec v) := by
  induction l with
  | nil => simp [sumOuters_nil]
  | cons x xs ih =>
      rw [sumOuters_cons, Matrix.add_mulVec, Matrix.dotProduct_add,
        vecMulVec_mulVec_eq, Matrix.dotProduct_smul]
      have hx : 0 ≤ Matrix.dotProduct x v * Matrix.dotProduct v x := by
        rw [Matrix.dotProduct_comm v x]
        exact mul_self_nonneg _
      simpa using add_nonneg hx ih

theorem quad_Mreg_ge {n : Nat} (l : List (Fin n → ℝ)) (v : Fin n → ℝ) :
    Matrix.dotProduct v v ≤
      Matrix.dotProduct v ((Mreg (1 + sumOuters l)).mulVec v) := by
  unfold Mreg
  rw [Matrix.add_mulVec, Matrix.add_mulVec, Matrix.one_mulVec,
    Matrix.smul_mulVec_assoc, Matrix.one_mulVec, Matrix.dotProduct_add,
    Matrix.dotProduct_add, Matrix.dotProduct_smul, smul_eq_mul]
  have h1 := quad_sumOuters_nonneg l v
  have h2 : 0 ≤ RIDGE_REGULARIZATION * Matrix.dotProduct v v := by
    have : (0:ℝ) ≤ RIDGE_REGULARIZATION := by norm_num [RIDGE_REGULARIZATION]
    exact mul_nonneg this (dotProduct_self_nonneg v)
  linarith

theorem Mreg_isUnit_det {n : Nat} (l : List (Fin n → ℝ)) :
    IsUnit (Mreg (1 + sumOuters l)).det := by
  rw [isUnit_iff_ne_zero]
  intro hdet
  obtain ⟨v, hv, hMv⟩ := (Matrix.exists_mulVec_eq_zero_iff).mpr hdet
  have h1 := quad_Mreg_ge l v
  rw [hMv] at h1
  simp only [Matrix.dotProduct_zero] at h1
  have h2 := dotProduct_self_nonneg v
  have h3 : Matrix.dotProduct v v = 0 := le_antisymm h1 h2
  exact hv (Matrix.dotProduct_self_eq_zero.mp h3)

theorem Mreg_mulVec_inv_cancel {n : Nat} (l : List (Fin n → ℝ)) (v : Fin n → ℝ) :
    (Mreg (1 + sumOuters l)).mulVec
      ((Mreg (1 + sumOuters l))⁻¹.mulVec v) = v := by
  rw [Matrix.mulVec_mulVec, Matrix.mul_nonsing_inv _ (Mreg_isUnit_det l),
    Matrix.one_mulVec]

theorem Mreg_inv_mulVec_cancel {n : Nat} (l : List (Fin n → ℝ)) (v : Fin n → ℝ) :
    (Mreg (1 + sumOuters l))⁻¹.mulVec
      ((Mreg (1 + sumOuters l)).mulVec v) = v := by
  rw [Matrix.mulVec_mulVec, Matrix.nonsing_inv_mul _ (Mreg_isUnit_det l),
    Matrix.one_mulVec]

theorem Mreg_inv_quad_nonneg {n : Nat} (l : List (Fin n → ℝ)) (x : Fin n → ℝ) :
    0 ≤ Matrix.dotProduct x ((Mreg (1 + sumOuters l))⁻¹.mulVec x) := by
  set w := (Mreg (1 + sumOuters l))⁻¹.mulVec x with hw
  have hx : (Mreg (1 + sumOuters l)).mulVec w = x := Mreg_mulVec_inv_cancel l x
  calc (0:ℝ) ≤ Matrix.dotProduct w w := dotProduct_self_nonneg w
    _ ≤ Matrix.dotProduct w ((Mreg (1 + sumOuters l)).mulVec w) := quad_Mreg_ge l w
    _ = Matrix.dotProduct ((Mreg (1 + sumOuters l)).mulVec w) w :=
        Matrix.dotProduct_comm _ _
    _ = Matrix.dotProduct x w := by rw [hx]

/-- Every reachable bandit state has `A = I + Σ x·xᵀ` for the list of its past
update contexts, and its stored `A_inv` is either `inv(A + RIDGE·I)` (after at
least one update) or the initial identity paired with `b = 0`. -/
theorem reachable_struct {n : Nat} {s : Bandit n} (hs : Reachable s) :
    ∃ l : List (Fin n → ℝ), s.A = 1 + sumOuters l ∧
      (s.A_inv = (Mreg s.A)⁻¹ ∨ (s.A_inv = 1 ∧ s.b = 0)) := by
  induction hs with
  | init alpha beta =>
      refine ⟨[], ?_, Or.inr ⟨rfl, rfl⟩⟩
      simp [banditInit, sumOuters_nil]
  | @step t x r _hr ih =>
      obtain ⟨l, hA, _⟩ := ih
      refine ⟨x :: l, ?_, Or.inl ?_⟩
      · rw [actualizar_A, hA, sumOuters_cons]
        abel
      · rw [actualizar_A_inv, actualizar_A]
        rfl

theorem predictedScore_actualizar {n : Nat} (s : Bandit n)
    (l : List (Fin n → ℝ)) (hA : s.A = 1 + sumOuters l) (x : Fin n → ℝ) (r : ℝ) :
    predictedScore (actualizar s x r) x =
      Matrix.dotProduct x
        ((Mreg (1 + sumOuters (x :: l)))⁻¹.mulVec (s.b + r • x)) := by
  unfold predictedScore
  rw [actualizar_A_inv, actualizar_b, hA]
  have hM : (1 : Matrix (Fin n) (Fin n) ℝ) + sumOuters l + Matrix.vecMulVec x x +
      RIDGE_REGULARIZATION • (1 : Matrix (Fin n) (Fin n) ℝ) =
      Mreg (1 + sumOuters (x :: l)) := by
    unfold Mreg
    rw [sumOuters_cons]
    abel
  rw [hM]

/-- CLAIM C7 (amended).  For every reachable bandit state `s` and context `x`,
updating with a reward `r` that is **at least the current predicted score**
`x·θ` (θ = A⁻¹·b from the stored state, as `seleccionar_lote` computes it) does
not decrease the predicted score at `x`.  (The original claim, with only
`0 < r` as the premise, is false: see `c7_counterexample_decrease` — a positive
reward strictly below the current prediction pulls the prediction down.) -/
theorem c7_predicted_score_monotone {n : Nat} (s : Bandit n) (hs : Reachable s)
    (x : Fin n → ℝ) (r : ℝ) (hr : predictedScore s x ≤ r) :
    predictedScore s x ≤ predictedScore (actualizar s x r) x := by
  obtain ⟨l, hA, hinv⟩ := reachable_struct hs
  rw [predictedScore_actualizar s l hA x r]
  rcases hinv with hM | ⟨hI, hb0⟩
  · -- at least one update has happened: A_inv = (A + ridge·I)⁻¹
    have hMl : s.A_inv = (Mreg (1 + sumOuters l))⁻¹ := by rw [hM, hA]
    set M' := Mreg (1 + sumOuters (x :: l)) with hMdef
    set θ₂ := M'⁻¹.mulVec (s.b + r • x) with hθ₂
    have h1 : M'.mulVec θ₂ = s.b + r • x := Mreg_mulVec_inv_cancel (x :: l) _
    have hsplit : M' = Mreg (1 + sumOuters l) + Matrix.vecMulVec x x := by
      rw [hMdef]
      unfold Mreg
      rw [sumOuters_cons]
      abel
    have h2 : (Mreg (1 + sumOuters l)).mulVec θ₂ =
        s.b + r • x - Matrix.dotProduct x θ₂ • x := by
      have hsub : Mreg (1 + sumOuters l) = M' - Matrix.vecMulVec x x := by
        rw [hsplit]; abel
      rw [hsub, Matrix.sub_mulVec, h1, vecMulVec_mulVec_eq]
    have h3 : θ₂ = (Mreg (1 + sumOuters l))⁻¹.mulVec
        (s.b + r • x - Matrix.dotProduct x θ₂ • x) := by
      rw [← h2, Mreg_inv_mulVec_cancel]
    set p := predictedScore s x with hp
    set q := Matrix.dotProduct x ((Mreg (1 + sumOuters l))⁻¹.mulVec x) with hq
    have hp' : Matrix.dotProduct x θ₂ =
        p + r * q - Matrix.dotProduct x θ₂ * q := by
      have hpexp : Matrix.dotProduct x ((Mreg (1 + sumOuters l))⁻¹.mulVec s.b) = p := by
        rw [hp]
        unfold predictedScore
        rw [hMl]
      conv_lhs => rw [h3]
      rw [Matrix.mulVec_sub, Matrix.mulVec_add, Matrix.mulVec_smul,
        Matrix.mulVec_smul, Matrix.dotProduct_sub, Matrix.dotProduct_add,
        Matrix.dotProduct_smul, Matrix.dotProduct_smul, smul_eq_mul, smul_eq_mul,
        hpexp]
      try ring
    have hqnn : 0 ≤ q := Mreg_inv_quad_nonneg l x
    have hrq : p * q ≤ r * q := mul_le_mul_of_nonneg_right hr hqnn
    have hmul : p * (1 + q) ≤ Matrix.dotProduct x θ₂ * (1 + q) := by nlinarith
    have hpos : (0:ℝ) < 1 + q := by linarith
    exact le_of_mul_le_mul_right hmul hpos
  · -- the fresh state: A_inv = I, b = 0, so the prior prediction is 0
    have hpre : predictedScore s x = 0 := by
      unfold predictedScore
      rw [hI, hb0]
      simp
    rw [hpre] at hr ⊢
    rw [hb0]
    have : (0 : Fin n → ℝ) + r • x = r • x := by simp
    rw [this, Matrix.mulVec_smul, Matrix.dotProduct_smul, smul_eq_mul]
    exact mul_nonneg hr (Mreg_inv_quad_nonneg (x :: l) x)

/-! ### A concrete run of the VMP bandit (`n_features = 18`, `alpha = 1.5`,
`beta = 0.8`, the instance built by `_inicializar_bandits`) used to settle the
monotonicity claim. -/

/-- The first basis context vector `e₀` of the 18-dimensional feature space. -/
noncomputable def e0Vec : Fin 18 → ℝ := fun i => if i = 0 then 1 else 0

/-- The VMP bandit after one update: context `e₀`, reward `10`. -/
noncomputable def c7_s1 : Bandit 18 := actualizar (banditInit 18 1.5 0.8) e0Vec 10

theorem dot_e0 (y : Fin 18 → ℝ) : Matrix.dotProduct e0Vec y = y 0 := by
  unfold Matrix.dotProduct e0Vec
  rw [Finset.sum_eq_single 0]
  · simp
  · intro i _ hi
    simp [hi]
  · intro h
    exact absurd (Finset.mem_univ 0) h

theorem diag_inv_eq (v w : Fin 18 → ℝ) (h : ∀ i, v i * w i = 1) :
    (Matrix.diagonal v)⁻¹ = Matrix.diagonal w := by
  apply Matrix.inv_eq_right_inv
  rw [Matrix.diagonal_mul_diagonal]
  have hvw : (fun i => v i * w i) = fun _ : Fin 18 => (1:ℝ) := funext h
  rw [hvw, Matrix.diagonal_one]

theorem one_outer_diag :
    (1 : Matrix (Fin 18) (Fin 18) ℝ) + Matrix.vecMulVec e0Vec e0Vec +
        RIDGE_REGULARIZATION • (1 : Matrix (Fin 18) (Fin 18) ℝ) =
      Matrix.diagonal (fun i =>
        if i = 0 then 2 + RIDGE_REGULARIZATION else 1 + RIDGE_REGULARIZATION) := by
  ext i j
  by_cases hij : i = j
  · subst hij
    by_cases hi : i = 0 <;>
      simp [Matrix.add_apply, Matrix.one_apply, Matrix.smul_apply,
        Matrix.vecMulVec_apply, Matrix.diagonal_apply, e0Vec, hi] <;>
      ring
  · have hzero : e0Vec i * e0Vec j = 0 := by
      unfold e0Vec
      by_cases hi : i = 0
      · have hj : ¬ j = 0 := fun hj => hij (hj ▸ hi)
        simp [hi, hj]
      · simp [hi]
    simp [Matrix.add_apply, Matrix.one_apply, Matrix.smul_apply,
      Matrix.vecMulVec_apply, Matrix.diagonal_apply, hij, hzero]

theorem two_outer_diag :
    (1 : Matrix (Fin 18) (Fin 18) ℝ) + Matrix.vecMulVec e0Vec e0Vec +
        Matrix.vecMulVec e0Vec e0Vec +
        RIDGE_REGULARIZATION • (1 : Matrix (Fin 18) (Fin 18) ℝ) =
      Matrix.diagonal (fun i =>
        if i = 0 then 3 + RIDGE_REGULARIZATION else 1 + RIDGE_REGULARIZATION) := by
  ext i j
  by_cases hij : i = j
  · subst hij
    by_cases hi : i = 0 <;>
      simp [Matrix.add_apply, Matrix.one_apply, Matrix.smul_apply,
        Matrix.vecMulVec_apply, Matrix.diagonal_apply, e0Vec, hi] <;>
      ring
  · have hzero : e0Vec i * e0Vec j = 0 := by
      unfold e0Vec
      by_cases hi : i = 0
      · have hj : ¬ j = 0 := fun hj => hij (hj ▸ hi)
        simp [hi, hj]
      · simp [hi]
    simp [Matrix.add_apply, Matrix.one_apply, Matrix.smul_apply,
      Matrix.vecMulVec_apply, Matrix.diagonal_apply, hij, hzero]

theorem c7_s1_score : predictedScore c7_s1 e0Vec = (2 + RIDGE_REGULARIZATION)⁻¹ * 10 := by
  unfold predictedScore c7_s1
  rw [actualizar_A_inv, actualizar_b]
  have hA : (banditInit 18 1.5 0.8).A = 1 := rfl
  have hb : (banditInit 18 1.5 0.8).b = 0 := rfl
  rw [hA, hb, one_outer_diag]
  rw [diag_inv_eq _ (fun i =>
      if i = 0 then (2 + RIDGE_REGULARIZATION)⁻¹ else (1 + RIDGE_REGULARIZATION)⁻¹)]
  · rw [dot_e0]
    have harg : ((0 : Fin 18 → ℝ) + (10:ℝ) • e0Vec) = (10:ℝ) • e0Vec := by simp
    rw [harg]
    rw [Matrix.mulVec_smul]
    simp only [Pi.smul_apply, smul_eq_mul]
    have hdiag : (Matrix.diagonal (fun i =>
        if i = 0 then (2 + RIDGE_REGULARIZATION)⁻¹ else (1 + RIDGE_REGULARIZATION)⁻¹)).mulVec
          e0Vec 0 = (2 + RIDGE_REGULARIZATION)⁻¹ := by
      rw [Matrix.mulVec_diagonal]
      simp [e0Vec]
    rw [hdiag]
    ring
  · intro i
    by_cases hi : i = 0 <;> simp [hi] <;>
      rw [mul_inv_cancel₀] <;> norm_num [RIDGE_REGULARIZATION]

theorem c7_s2_score :
    predictedScore (actualizar c7_s1 e0Vec 1) e0Vec =
      (3 + RIDGE_REGULARIZATION)⁻¹ * 11 := by
  unfold predictedScore
  rw [actualizar_A_inv, actualizar_b]
  have hA : c7_s1.A = 1 + Matrix.vecMulVec e0Vec e0Vec := by
    unfold c7_s1
    rw [actualizar_A]
    have : (banditInit 18 1.5 0.8).A = 1 := rfl
    rw [this]
  have hb : c7_s1.b = (10:ℝ) • e0Vec := by
    unfold c7_s1
    rw [actualizar_b]
    have : (banditInit 18 1.5 0.8).b = 0 := rfl
    rw [this]
    simp
  rw [hA, hb, two_outer_diag]
  rw [diag_inv_eq _ (fun i =>
      if i = 0 then (3 + RIDGE_REGULARIZATION)⁻¹ else (1 + RIDGE_REGULARIZATION)⁻¹)]
  · rw [dot_e0]
    have harg : ((10:ℝ) • e0Vec + (1:ℝ) • e0Vec) = (11:ℝ) • e0Vec := by
      funext i
      simp [e0Vec]
      by_cases hi : i = 0 <;> simp [hi] <;> norm_num
    rw [harg, Matrix.mulVec_smul]
    simp only [Pi.smul_apply, smul_eq_mul]
    have hdiag : (Matrix.diagonal (fun i =>
        if i = 0 then (3 + RIDGE_REGULARIZATION)⁻¹ else (1 + RIDGE_REGULARIZATION)⁻¹)).mulVec
          e0Vec 0 = (3 + RIDGE_REGULARIZATION)⁻¹ := by
      rw [Matrix.mulVec_diagonal]
      simp [e0Vec]
    rw [hdiag]
    ring
  · intro i
    by_cases hi : i = 0 <;> simp [hi] <;>
      rw [mul_inv_cancel₀] <;> norm_num [RIDGE_REGULARIZATION]

/-- CLAIM C7, counterexample.  The state `c7_s1` (the 18-feature VMP bandit
after one update with context `e₀` and reward `10`) is reachable; updating it
with context `e₀` and the strictly positive reward `1` **strictly decreases**
the predicted score `x·θ` at `x = e₀` (from `10/2.001` to `11/3.001`), so the
claim that any strictly positive reward keeps `x·θ` non-decreasing is false. -/
theorem c7_counterexample_decrease :
    Reachable c7_s1 ∧ (0:ℝ) < 1 ∧
      predictedScore (actualizar c7_s1 e0Vec 1) e0Vec < predictedScore c7_s1 e0Vec := by
  refine ⟨Reachable.step e0Vec 10 (Reachable.init 1.5 0.8), by norm_num, ?_⟩
  rw [c7_s1_score, c7_s2_score]
  rw [RIDGE_REGULARIZATION]
  norm_num

/-- Witness for `c7_predicted_score_monotone` at a concrete input: the fresh
VMP bandit, context `e₀`, reward `10`. -/
theorem c7_witness :
    predictedScore (banditInit 18 1.5 0.8) e0Vec ≤
      predictedScore (actualizar (banditInit 18 1.5 0.8) e0Vec 10) e0Vec :=
  c7_predicted_score_monotone (banditInit 18 1.5 0.8) (Reachable.init 1.5 0.8)
    e0Vec 10 (by
      unfold predictedScore banditInit
      simp)

/-- CLAIM C6.  After any update of a reachable bandit state the reward/context
history length is at most 1000 (`MAX_HISTORY_SIZE`), the two histories stay
aligned, and whenever the append makes the history exceed 1000 entries it is
trimmed to exactly the most recent 500 (`HISTORY_TRIM_SIZE`). -/
theorem c6_history_bound {n : Nat} (s : Bandit n) (hs : Reachable s)
    (x : Fin n → ℝ) (r : ℝ) :
    (actualizar s x r).historial_recompensas.length ≤ 1000 ∧
      (actualizar s x r).historial_contextos.length =
        (actualizar s x r).historial_recompensas.length ∧
      (1000 < s.historial_recompensas.length + 1 →
        (actualizar s x r).historial_recompensas =
          ((s.historial_recompensas ++ [r]).reverse.take 500).reverse ∧
        (actualizar s x r).historial_recompensas.length = 500) := by
  have hlen := reachable_hist_len (Reachable.step x r hs)
  have hpre := reachable_hist_len hs
  refine ⟨?_, hlen.2, ?_⟩
  · exact hlen.1
  · intro hover
    have hcond : MAX_HISTORY_SIZE < (s.historial_recompensas ++ [r]).length := by
      simp only [List.length_append, List.length_singleton, MAX_HISTORY_SIZE]
      omega
    have heq := actualizar_hist s x r
    rw [if_pos hcond] at heq
    have hlen1000 : s.historial_recompensas.length = 1000 := by
      have := hpre.1
      simp only [MAX_HISTORY_SIZE] at this
      omega
    constructor
    · rw [heq, ← List.rtake_eq_reverse_take_reverse]
      unfold List.rtake
      simp only [HISTORY_TRIM_SIZE]
    · rw [heq]
      simp only [List.length_drop, List.length_append, List.length_singleton,
        HISTORY_TRIM_SIZE, hlen1000]

/-- Witness for `c6_history_bound` at a concrete input: the fresh VMP bandit
updated with context `e₀` and reward `5`. -/
theorem c6_witness :
    (actualizar (banditInit 18 1.5 0.8) e0Vec 5).historial_recompensas.length ≤ 1000 ∧
      (actualizar (banditInit 18 1.5 0.8) e0Vec 5).historial_contextos.length =
        (actualizar (banditInit 18 1.5 0.8) e0Vec 5).historial_recompensas.length ∧
      (1000 < (banditInit 18 1.5 0.8).historial_recompensas.length + 1 →
        (actualizar (banditInit 18 1.5 0.8) e0Vec 5).historial_recompensas =
          (((banditInit 18 1.5 0.8).historial_recompensas ++ [5]).reverse.take 500).reverse ∧
        (actualizar (banditInit 18 1.5 0.8) e0Vec 5).historial_recompensas.length = 500) :=
  c6_history_bound (banditInit 18 1.5 0.8) (Reachable.init 1.5 0.8) e0Vec 5

/-- CLAIM C8.  The adaptive exploration bonus equals the constant `0.7`
broadcast to all `m` entries when fewer than 10 rewards have been observed, and
otherwise equals `β · Var(last 50 rewards) · 1.3` multiplied entrywise by the
uniform `[0,1)` draws consumed from the random generator. -/
theorem c8_exploracion_adaptativa_spec {n : Nat} (s : Bandit n) (m : Nat)
    (draws : Fin m → ℝ) (i : Fin m) :
    calcular_exploracion_adaptativa s m draws i =
      if s.historial_recompensas.length < 10 then 0.7
      else s.beta *
        npVar ((s.historial_recompensas.reverse.take 50).reverse) * 1.3 * draws i := by
  unfold calcular_exploracion_adaptativa
  simp only [MIN_HISTORY_FOR_ADAPTATION, RECENT_REWARDS_WINDOW]
  by_cases h : s.historial_recompensas.length < 10
  · simp only [h, if_true]
  · simp only [h, if_false]
    rw [← List.rtake_eq_reverse_take_reverse]
    unfold List.rtake
    rfl

/-! ### Claims C4 and C5 -/

/-- CLAIM C5 (amended).  Parsing the excluded list never raises for `None`
inputs, for any *ASCII* comma-separated string (tokens failing `isdigit` after
strip are silently dropped, and an ASCII token passing `isdigit` is a plain
digit run that `int()` accepts), for non-list/non-string values, and for lists
whose elements all survive `int(x)` (`int`s, or strings that are valid integer
literals).  The original claim is false in two ways, see
`c5_counterexample_raises`: a list containing a non-numeric string reaches
`int(x)` unguarded and raises `ValueError`, and a string with a non-decimal
digit-property token such as `'²'` passes the `isdigit` filter but raises in
`int()`. -/
theorem c5_parse_excluded_recovery :
    (∀ s : String, isAsciiStr s = true →
      (parse_excluded_ids (ExcludedIdsInput.vStr s)).isOk = true) ∧
      (parse_excluded_ids ExcludedIdsInput.vNone).isOk = true ∧
      (parse_excluded_ids ExcludedIdsInput.vOther).isOk = true ∧
      (∀ xs : List ExcludedElem, (∀ e ∈ xs, listElemParses e = true) →
        (parse_excluded_ids (ExcludedIdsInput.vList xs)).isOk = true) := by
  refine ⟨?_, rfl, rfl, ?_⟩
  · intro s hascii
    have hA : ∀ x ∈ s.data, x.toNat < 128 := by
      unfold isAsciiStr at hascii
      simpa using hascii
    simp only [parse_excluded_ids]
    by_cases hs : s = ""
    · subst hs
      rfl
    · simp only [hs, if_false]
      have hall : ∀ t ∈ (pySplitComma s.data []).filter
          (fun t => pyIsDigitStr (pyStrip t)), (pyIntOfString t).isSome = true := by
        intro t ht
        have htok := (List.mem_filter.mp ht).1
        have hdig := (List.mem_filter.mp ht).2
        refine pyIntOfString_of_ascii_isdigit ?_ (by simpa using hdig)
        intro c hc
        rcases mem_pySplitComma s.data [] t htok c (mem_pyStrip hc) with h | h
        · exact hA c h
        · simp at h
      have hsome := optionMapAll_isSome (fun t => pyIntOfString t) _ hall
      rcases hmap : optionMapAll (fun t => pyIntOfString t)
          ((pySplitComma s.data []).filter (fun t => pyIsDigitStr (pyStrip t)))
        with _ | l
      · rw [hmap] at hsome
        simp at hsome
      · rfl
  · intro xs hxs
    simp only [parse_excluded_ids]
    have hall : ∀ e ∈ xs.filter (fun e =>
        match e with
        | ExcludedElem.intElem _ => true
        | ExcludedElem.strElem _ => true
        | ExcludedElem.otherElem => false),
        ((match e with
          | ExcludedElem.intElem n => some n
          | ExcludedElem.strElem s => pyIntOfString s.data
          | ExcludedElem.otherElem => none) : Option Int).isSome = true := by
      intro e he
      have hmem := (List.mem_filter.mp he).1
      have hf := (List.mem_filter.mp he).2
      cases e with
      | intElem n => simp
      | strElem s => exact hxs _ hmem
      | otherElem => simp at hf
    have hsome := optionMapAll_isSome _ _ hall
    rcases hmap : optionMapAll (fun e =>
        (match e with
          | ExcludedElem.intElem n => some n
          | ExcludedElem.strElem s => pyIntOfString s.data
          | ExcludedElem.otherElem => none : Option Int))
        (xs.filter (fun e =>
          match e with
          | ExcludedElem.intElem _ => true
          | ExcludedElem.strElem _ => true
          | ExcludedElem.otherElem => false))
      with _ | l
    · rw [hmap] at hsome
      simp at hsome
    · rw [hmap]
      rfl

/-- CLAIM C5, counterexample.  Two inputs squarely within the claim's scope
raise `ValueError` instead of being treated as empty: the list `["abc"]` (a
list containing an arbitrary string reaches `int("abc")` unguarded), and the
string `"²"` (CPython's `'²'.isdigit()` is `True`, so the token passes the
filter, but `int('²')` raises). -/
theorem c5_counterexample_raises :
    (parse_excluded_ids (ExcludedIdsInput.vList [ExcludedElem.strElem "abc"])).isOk
        = false ∧
      (parse_excluded_ids (ExcludedIdsInput.vStr "²")).isOk = false := by
  refine ⟨by decide, by decide⟩

/-- Witness for `c5_parse_excluded_recovery` at concrete inputs: an ASCII
string with a junk token, and a list of an `int`, a signed padded numeric
string and an underscore-separated literal. -/
theorem c5_witness :
    (parse_excluded_ids (ExcludedIdsInput.vStr "12, x,7")).isOk = true ∧
      (parse_excluded_ids (ExcludedIdsInput.vList
        [ExcludedElem.intElem 3, ExcludedElem.strElem " -42 ",
         ExcludedElem.strElem "1_2"])).isOk = true :=
  ⟨c5_parse_excluded_recovery.1 "12, x,7" (by decide),
   c5_parse_excluded_recovery.2.2.2
     [ExcludedElem.intElem 3, ExcludedElem.strElem " -42 ",
      ExcludedElem.strElem "1_2"] (by decide)⟩

/-- The snapshot tables before the reload fixture below (all five hold `0`). -/
def c4_tables0 : DataTables Nat := ⟨0, 0, 0, 0, 0⟩

/-- A reload in which the third step (`_load_interactions`) raises after users
and videos have already been re-assigned. -/
def c4_failing : LoadResults Nat := ⟨some 1, some 2, none, some 3, some 4⟩

/-- CLAIM C4 (amended).  `load_all_data` re-assigns the five snapshot tables
sequentially, in load order: on failure of step `k` the error is surfaced to
the caller (the reload endpoint returns non-200), but the tables loaded before
step `k` already hold the *new* values while the later tables keep the old
ones — the previous snapshot does not remain in place, and the mixed state is
what request handlers observe; only when all five steps succeed are all five
tables replaced. -/
theorem c4_reload_sequential {α : Type} (s : DataTables α) (r : LoadResults α) :
    (∀ u v i c f, r.users = some u → r.videos = some v → r.interactions = some i →
        r.connections = some c → r.flows = some f →
        load_all_data s r = (⟨u, v, i, c, f⟩, true)) ∧
      (r.users = none → load_all_data s r = (s, false)) ∧
      (∀ u, r.users = some u → r.videos = none →
        load_all_data s r =
          (⟨u, s.videos_df, s.interactions_df, s.connections_df, s.flows_df⟩, false)) ∧
      (∀ u v, r.users = some u → r.videos = some v → r.interactions = none →
        load_all_data s r =
          (⟨u, v, s.interactions_df, s.connections_df, s.flows_df⟩, false)) ∧
      (∀ u v i, r.users = some u → r.videos = some v → r.interactions = some i →
        r.connections = none →
        load_all_data s r = (⟨u, v, i, s.connections_df, s.flows_df⟩, false)) ∧
      (∀ u v i c, r.users = some u → r.videos = some v → r.interactions = some i →
        r.connections = some c → r.flows = none →
        load_all_data s r = (⟨u, v, i, c, s.flows_df⟩, false)) := by
  refine ⟨?_, ?_, ?_, ?_, ?_, ?_⟩
  · intro u v i c f hu hv hi hc hf
    simp [load_all_data, hu, hv, hi, hc, hf]
  · intro hu
    simp [load_all_data, hu]
  · intro u hu hv
    simp [load_all_data, hu, hv]
  · intro u v hu hv hi
    simp [load_all_data, hu, hv, hi]
  · intro u v i hu hv hi hc
    simp [load_all_data, hu, hv, hi, hc]
  · intro u v i c hu hv hi hc hf
    simp [load_all_data, hu, hv, hi, hc, hf]

/-- CLAIM C4, counterexample.  With the previous snapshot all-`0` and a reload
whose interactions step fails, the returned flag is `false` (non-200) but the
snapshot did **not** remain unchanged: `users_df` and `videos_df` already hold
the new tables while `interactions_df` still holds the old one — a partial
(mixed old/new) snapshot. -/
theorem c4_counterexample_partial_mutation :
    (load_all_data c4_tables0 c4_failing).2 = false ∧
      (load_all_data c4_tables0 c4_failing).1 ≠ c4_tables0 ∧
      (load_all_data c4_tables0 c4_failing).1.users_df = 1 ∧
      (load_all_data c4_tables0 c4_failing).1.videos_df = 2 ∧
      (load_all_data c4_tables0 c4_failing).1.interactions_df = 0 := by
  refine ⟨rfl, ?_, rfl, rfl, rfl⟩
  intro h
  have := congrArg DataTables.users_df h
  simp [c4_tables0, c4_failing, load_all_data] at this

/-- Witness for `c4_reload_sequential` at concrete inputs: a fully successful
reload, and a reload failing at the interactions step. -/
theorem c4_witness :
    load_all_data c4_tables0
        (⟨some 1, some 2, some 3, some 4, some 5⟩ : LoadResults Nat) =
      (⟨1, 2, 3, 4, 5⟩, true) ∧
      load_all_data c4_tables0 c4_failing = (⟨1, 2, 0, 0, 0⟩, false) :=
  ⟨(c4_reload_sequential c4_tables0 _).1 1 2 3 4 5 rfl rfl rfl rfl rfl,
   (c4_reload_sequential c4_tables0 c4_failing).2.2.2.1 1 2 rfl rfl rfl⟩

/-! ## The recommendation engine data model
(src/services/recommendation.py, `RecommendationEngine`)

A `VideoRow` is one row of `videos_df` *after* `_precalcular_scores_avanzados`:
the raw catalog columns plus the precomputed score columns.  The score columns
built from `np.log1p` / `np.exp` normalisations (`score_engagement`,
`score_temporal`, `score_calidad`, `score_popularidad`, `rareza_skills`) are
transcendental functions of the whole snapshot and are carried as data; the
columns the claims depend on (`pasa_gate_calidad`, `boost_nuevo`,
`diversidad_skills`) are embedded as functions of the row below.  The
JSON skill fields are carried already decoded to string lists. -/

structure VideoRow where
  id : Int
  user_id : Int
  video : String
  description : String
  creator_name : String
  city : String
  days_since_creation : Int
  views : Int
  avg_rating : ℚ
  rating_count : Int
  connection_count : Int
  like_count : Int
  exhibited_count : Int
  video_skills : List String
  video_knowledges : List String
  video_tools : List String
  video_languages : List String
  score_engagement : ℚ
  score_temporal : ℚ
  score_calidad : ℚ
  score_popularidad : ℚ
  rareza_skills : ℚ
deriving DecidableEq

/-- One row of `flows_df`.  `days_since_creation` is read through `float(...)`
in the source, so it is carried as a rational. -/
structure FlowRow where
  id : Int
  user_id : Int
  video : String
  name : String
  description : String
  creator_name : String
  city : String
  talent_type : String
  days_since_creation : ℚ
deriving DecidableEq

/-- One row of `interactions_df` (only the columns the engine reads). -/
structure Interaction where
  user_id : Int
  video_id : Int
deriving DecidableEq

/-- One row of `connections_df`. -/
structure Connection where
  user_id : Int
  connected_user_id : Int
deriving DecidableEq

/-- `PATRON_FEED = ['VMP', 'AU', 'AU', 'VMP', 'NU', 'FW']`. -/
def PATRON_FEED : List String := ["VMP", "AU", "AU", "VMP", "NU", "FW"]

/-- `VIDEOS_POR_RESPUESTA = 24`. -/
def VIDEOS_POR_RESPUESTA : Nat := 24

/-- `VENTANA_DIVERSIDAD_CREADORES = 12`. -/
def VENTANA_DIVERSIDAD_CREADORES : Nat := 12

/-- `MAX_SKILLS_POR_VIDEO = 5`. -/
def MAX_SKILLS_POR_VIDEO : Nat := 5

/-- `MAX_KNOWLEDGE_POR_VIDEO = 3`. -/
def MAX_KNOWLEDGE_POR_VIDEO : Nat := 3

/-- `MAX_TOOLS_POR_VIDEO = 3`. -/
def MAX_TOOLS_POR_VIDEO : Nat := 3

/-- `MAX_LANGUAGES_POR_VIDEO = 3`. -/
def MAX_LANGUAGES_POR_VIDEO : Nat := 3

/-! `_cachear_datos_videos` builds per-video dictionaries keyed by `id` by
iterating the rows in order, so for a duplicated id the *last* row wins; the
lookups below follow that convention (`getLast?` of the matching rows).
`_parse_json_to_set` truncates the decoded list (`data[:max_items]`) and takes
a set — deduplication after truncation. -/

/-- `video_a_creador.get(vid)`. -/
def video_a_creador (videos : List VideoRow) (vid : Int) : Option Int :=
  ((videos.filter (fun v => v.id = vid)).getLast?).map (fun v => v.user_id)

/-- `video_a_url.get(vid)` / `video_a_url[vid]`. -/
def video_a_url (videos : List VideoRow) (vid : Int) : Option String :=
  ((videos.filter (fun v => v.id = vid)).getLast?).map (fun v => v.video)

/-- `cache_skills_video.get(vid, set())`. -/
def cache_skills_video (videos : List VideoRow) (vid : Int) : List String :=
  (((videos.filter (fun v => v.id = vid)).getLast?).map
    (fun v => pySet (v.video_skills.take MAX_SKILLS_POR_VIDEO))).getD []

/-- `cache_knowledges_video.get(vid, set())`. -/
def cache_knowledges_video (videos : List VideoRow) (vid : Int) : List String :=
  (((videos.filter (fun v => v.id = vid)).getLast?).map
    (fun v => pySet (v.video_knowledges.take MAX_KNOWLEDGE_POR_VIDEO))).getD []

/-- `cache_tools_video.get(vid, set())`. -/
def cache_tools_video (videos : List VideoRow) (vid : Int) : List String :=
  (((videos.filter (fun v => v.id = vid)).getLast?).map
    (fun v => pySet (v.video_tools.take MAX_TOOLS_POR_VIDEO))).getD []

/-- `cache_languages_video.get(vid, set())`. -/
def cache_languages_video (videos : List VideoRow) (vid : Int) : List String :=
  (((videos.filter (fun v => v.id = vid)).getLast?).map
    (fun v => pySet (v.video_languages.take MAX_LANGUAGES_POR_VIDEO))).getD []

/-- `_video_en_lista_negra`: `False` for an id outside `video_a_url`, else a
blacklist membership test on the video's URL. -/
def video_en_lista_negra (videos : List VideoRow) (lista_negra : List String)
    (vid : Int) : Bool :=
  match video_a_url videos vid with
  | none => false
  | some url => decide (url ∈ lista_negra)

/-- `boost_nuevo`: `1.5` when `days_since_creation ≤ 30`, else `1.0`
(from `_precalcular_scores_avanzados`). -/
def boost_nuevo (v : VideoRow) : ℚ :=
  if v.days_since_creation ≤ 30 then 3/2 else 1

/-- `pasa_gate_calidad`: `avg_rating ≥ 3.0` or `views ≥ 20` or
`connection_count ≥ 2` or `rating_count ≥ 2` or `days_since_creation < 14`
(from `_precalcular_scores_avanzados`). -/
def pasa_gate_calidad (v : VideoRow) : Bool :=
  decide (3 ≤ v.avg_rating) || decide (20 ≤ v.views) ||
    decide (2 ≤ v.connection_count) || decide (2 ≤ v.rating_count) ||
    decide (v.days_since_creation < 14)

/-- `diversidad_skills`: `(|skills| + |knowledges| + |tools|) / 15.0`
(from `_precalcular_scores_avanzados`, computed from the per-id caches). -/
def diversidad_skills (videos : List VideoRow) (vid : Int) : ℚ :=
  (((cache_skills_video videos vid).length +
    (cache_knowledges_video videos vid).length +
    (cache_tools_video videos vid).length : Nat) : ℚ) / 15

/-- `grafo_social[u]` as built by `_construir_grafo_social` from
`connections_df` (a `defaultdict(set)`; absent users give the empty set). -/
def grafo_social (connections : List Connection) (u : Int) : List Int :=
  pySet ((connections.filter (fun c => c.user_id = u)).map
    (fun c => c.connected_user_id))

/-- The keys of the preferences dict built by
`_obtener_preferencias_usuario_rapido`.  The unit-normalised skill vector
(`vector_skills`) feeds only the cosine-similarity feature, which reaches the
selectors through `ScrollEnv.sim_skills`, so it is not carried here. -/
structure UserPrefs where
  skills : List String
  knowledges : List String
  tools : List String
  languages : List String
  cities : List String
  vistos : List Int
  pesos_skills : String → ℚ
  red_social : List Int
  score_influencia_social : ℚ

/-- The empty preferences dict returned for a user with no interactions. -/
def emptyPrefs : UserPrefs :=
  ⟨[], [], [], [], [], [], fun _ => 0, [], 0⟩

/-- `prefs_usuario.get(key, set())` for the integer-set valued entries of the
preferences dict.  The dict's keys are fixed at construction (`'vistos'`,
`'red_social'`, …); **any other key — in particular `'conexiones'`, which
`_seleccionar_flows_para_usuario` asks for — returns the empty-set default.** -/
def prefsGetIntSet (p : UserPrefs) (key : String) : List Int :=
  if key = "vistos" then p.vistos
  else if key = "red_social" then p.red_social
  else []

/-- The attribute sets `_obtener_preferencias_usuario_rapido` accumulates from
the sample `list(vistos)[:80]` (Python set iteration order — process-dependent
hash order — decides which 80 seen ids are sampled, and the per-skill weight
dict follows from the same sample), plus the `cities` column lookup over that
sample.  They are threaded in as request-scoped data. -/
structure SampledAttrs where
  skills : List String
  knowledges : List String
  tools : List String
  languages : List String
  cities : List String
  pesos_skills : String → ℚ

/-- `_obtener_preferencias_usuario_rapido(user_id)`: empty preferences when the
user has no interactions, otherwise `vistos` = the set of the user's
interaction video ids, the social fields from the graph, and the sampled
attribute sets.  `score_influencia_social` is `log1p(|neighbourhood|)/10`, a
transcendental value threaded in as `influencia_social`. -/
def obtener_preferencias_usuario_rapido (interactions : List Interaction)
    (connections : List Connection) (influencia_social : Int → ℚ)
    (attrs : SampledAttrs) (user_id : Int) : UserPrefs :=
  let interacciones_usuario := interactions.filter (fun i => i.user_id = user_id)
  if interacciones_usuario.isEmpty then emptyPrefs
  else
    { skills := attrs.skills
      knowledges := attrs.knowledges
      tools := attrs.tools
      languages := attrs.languages
      cities := attrs.cities
      vistos := pySet (interacciones_usuario.map (fun i => i.video_id))
      pesos_skills := attrs.pesos_skills
      red_social := grafo_social connections user_id
      score_influencia_social := influencia_social user_id }

/-- `_calcular_match_extendido_vectorizado` for one video:
`15·|skills∩| + 12·|knowledges∩| + 10·|tools∩| + 8·|languages∩|`, capped at
100. -/
def calcular_match_extendido (videos : List VideoRow) (prefs : UserPrefs)
    (vid : Int) : ℚ :=
  let s := ((cache_skills_video videos vid).filter
    (fun x => decide (x ∈ prefs.skills))).length
  let k := ((cache_knowledges_video videos vid).filter
    (fun x => decide (x ∈ prefs.knowledges))).length
  let t := ((cache_tools_video videos vid).filter
    (fun x => decide (x ∈ prefs.tools))).length
  let lg := ((cache_languages_video videos vid).filter
    (fun x => decide (x ∈ prefs.languages))).length
  min ((15 * s + 12 * k + 10 * t + 8 * lg : Nat) : ℚ) 100

/-- Bandit statistics block (`obtener_estadisticas_rendimiento`) as reported in
the metrics: the bandit state is process-wide engine state, so its statistics
enter `generar_scroll_infinito` as data. -/
structure BanditStatsData where
  recompensa_promedio : ℚ
  total_selecciones : Nat
  promedio_reciente : ℚ
deriving DecidableEq

/-- Everything `generar_scroll_infinito` consumes from process-wide mutable
state: the bandit UCB score vectors (`seleccionar_lote` outputs, including
their exploration randomness and the per-candidate noise feature), the NumPy
uniform draws and sampled row positions consumed by the selectors, the
cosine-similarity feature column, the sampled preference attributes, the
log-based social influence score, the wall-clock execution time, and the
bandit statistics blocks.  Holding a `ScrollEnv` fixed is exactly the claims'
"same snapshot, same bandit state, same random-generator state". -/
structure ScrollEnv where
  ucb_vmp : Int → ℚ
  ucb_nu : Int → ℚ
  ucb_au : Int → ℚ
  sim_skills : Int → ℚ
  nu_noise : Int → ℚ
  flow_noise : Int → ℚ
  vmp_sample_idx : List Nat
  nu_sample_idx : List Nat
  explore_sample_idx : List Nat
  attrs : SampledAttrs
  influencia_social : Int → ℚ
  execution_time : ℚ
  stats_vmp : BanditStatsData
  stats_au : BanditStatsData
  stats_nu : BanditStatsData

/-! ### Candidate-pool selectors (src/services/recommendation.py, 772–1010) -/

/-- `_seleccionar_vmp_rapido`: quality-gated candidates (gate dropped if that
leaves none), scored `ucb + 2.2·engagement + 1.6·popularity + 1.8·quality +
1.4·[days ≤ 45]`, top `min(2n, len)` rows, then a weighted sample without
replacement of `min(n, len(top))` rows — the row positions chosen by
`np.random.choice` are `env.vmp_sample_idx`. -/
def seleccionar_vmp_rapido (videos : List VideoRow) (env : ScrollEnv)
    (ids_excluir : List Int) (prefs_usuario : UserPrefs)
    (creadores_usados : List Int) (n : Nat) : List Int :=
  let candidatos := videos.filter (fun v =>
    decide (v.id ∉ ids_excluir) && decide (v.user_id ∉ creadores_usados) &&
      pasa_gate_calidad v)
  let candidatos := if candidatos.isEmpty then
      videos.filter (fun v =>
        decide (v.id ∉ ids_excluir) && decide (v.user_id ∉ creadores_usados))
    else candidatos
  if candidatos.isEmpty then []
  else
    let score := fun v : VideoRow =>
      env.ucb_vmp v.id + v.score_engagement * (11/5) +
        v.score_popularidad * (8/5) + v.score_calidad * (9/5) +
        (if v.days_since_creation ≤ 45 then (7/5 : ℚ) else 0)
    let top_candidatos := nlargestBy score (min (n * 2) candidatos.length) candidatos
    (env.vmp_sample_idx.filterMap (fun i => top_candidatos.get? i)).map
      (fun v => v.id)

/-- `_seleccionar_nu_rapido`: candidates with `days_since_creation ≤ 45`,
scored `ucb + 2.5·temporal + 1.8·diversity + 1.4·rarity/100 + 0.8·boost +
U[0,0.6)`, top `min(2n, len)`; a uniform sample of `n` rows
(`env.nu_sample_idx`) when more than `n` remain. -/
def seleccionar_nu_rapido (videos : List VideoRow) (env : ScrollEnv)
    (ids_excluir : List Int) (prefs_usuario : UserPrefs)
    (creadores_usados : List Int) (n : Nat) : List Int :=
  let candidatos := videos.filter (fun v =>
    decide (v.id ∉ ids_excluir) && decide (v.user_id ∉ creadores_usados) &&
      decide (v.days_since_creation ≤ 45))
  if candidatos.isEmpty then []
  else
    let score := fun v : VideoRow =>
      env.ucb_nu v.id + v.score_temporal * (5/2) +
        diversidad_skills videos v.id * (9/5) + v.rareza_skills / 100 * (7/5) +
        boost_nuevo v * (4/5) + env.nu_noise v.id
    let top_candidatos := nlargestBy score (min (n * 2) candidatos.length) candidatos
    if n < top_candidatos.length then
      (env.nu_sample_idx.filterMap (fun i => top_candidatos.get? i)).map
        (fun v => v.id)
    else top_candidatos.map (fun v => v.id)

/-- `_seleccionar_au_rapido`: candidates excluding items and creators, scored
`ucb + 3.5·feat5 + 3.0·feat6 + 1.1·popularity + 1.4·quality + 0.9·temporal +
0.9·rarity/100 + 0.9·[days ≤ 45]`; top `min(n, len)` rows (no sampling). -/
def seleccionar_au_rapido (videos : List VideoRow) (env : ScrollEnv)
    (ids_excluir : List Int) (prefs_usuario : UserPrefs)
    (creadores_usados : List Int) (n : Nat) : List Int :=
  let candidatos := videos.filter (fun v =>
    decide (v.id ∉ ids_excluir) && decide (v.user_id ∉ creadores_usados))
  if candidatos.isEmpty then []
  else
    let score := fun v : VideoRow =>
      env.ucb_au v.id + env.sim_skills v.id * (7/2) +
        (calcular_match_extendido videos prefs_usuario v.id / 100) * 3 +
        v.score_popularidad * (11/10) + v.score_calidad * (7/5) +
        v.score_temporal * (9/10) + v.rareza_skills / 100 * (9/10) +
        (if v.days_since_creation ≤ 45 then (9/10 : ℚ) else 0)
    (nlargestBy score (min n candidatos.length) candidatos).map (fun v => v.id)

/-- `_seleccionar_flows`: flows excluding ids and creators, scored
`U[0,40) + (60 − days)/60·60`; top `min(n, len)`. -/
def seleccionar_flows (flows : List FlowRow) (env : ScrollEnv)
    (ids_excluir : List Int) (creadores_usados : List Int) (n : Nat) : List Int :=
  if flows.isEmpty then []
  else
    let candidatos := flows.filter (fun f =>
      decide (f.id ∉ ids_excluir) && decide (f.user_id ∉ creadores_usados))
    if candidatos.isEmpty then []
    else
      let score := fun f : FlowRow =>
        env.flow_noise f.id + (60 - f.days_since_creation) / 60 * 60
      (nlargestBy score (min n candidatos.length) candidatos).map (fun f => f.id)

/-- `_seleccionar_boost_exploracion`: a uniform random sample of
`min(n, len)` remaining videos; the sampled row positions are
`env.explore_sample_idx`. -/
def seleccionar_boost_exploracion (videos : List VideoRow) (env : ScrollEnv)
    (ids_excluir : List Int) (creadores_usados : List Int) (n : Nat) : List Int :=
  let candidatos := videos.filter (fun v =>
    decide (v.id ∉ ids_excluir) && decide (v.user_id ∉ creadores_usados))
  if candidatos.isEmpty then []
  else
    (env.explore_sample_idx.filterMap (fun i => candidatos.get? i)).map
      (fun v => v.id)

/-! ### The assembler (src/services/recommendation.py, 1012–1387)

The `while` walks over the pools are embedded structurally: the walk receives
the pool suffix from the current cursor, returns how many entries it consumed
and the accepted id (if any), and the cursor advances by the consumed count —
exactly the `idx += 1` / `break` discipline of the source. -/

/-- One entry of the returned feed.  A resume dict carries no
`title`/`description`/`talent_type` keys; those fields are `""` here for
resumes (no claim reads them).  `tipo` is the dict's `'type'` key. -/
structure FeedItem where
  position : Nat
  video_id : Int
  tipo : String
  patron_type : String
  video_url : String
  creator_name : String
  city : String
  title : String
  description : String
  talent_type : String
  days_old : Int
  views : Int
  rating : ℚ
deriving DecidableEq

/-- The assembler's mutable loop state. -/
structure AsmState where
  feed : List FeedItem
  ids_usados : List Int
  skills_usados : List String
  creadores_usados_en_feed : List Int
  creadores_por_ventana : List Int
  idx_vmp : Nat
  idx_nu : Nat
  idx_au : Nat
  idx_flow : Nat
  idx_explore : Nat

/-- The per-request constants of the assembly loop: the snapshot tables, the
blacklist, the five generated pools and the requested feed length. -/
structure AsmCtx where
  videos : List VideoRow
  flows : List FlowRow
  lista_negra : List String
  pool_vmp : List Int
  pool_nu : List Int
  pool_au : List Int
  pool_flows : List Int
  pool_exploracion : List Int
  n_videos : Nat

/-- Python truthiness of the `video_id` variable (`if video_id:` /
`if not video_id:`): `None` and `0` are falsy. -/
def optTruthy : Option Int → Bool
  | none => false
  | some v => decide (v ≠ 0)

/-- The acceptance test of one VMP/AU/NU pool entry: optional blacklist check
(`AU`/`NU` only), `vid not in ids_usados`, a creator who exists and is not in
the current diversity window, and the skill-novelty rule (`≥ 1` new skill, or
fewer than 3 skills used so far). -/
def acceptsPrimary (ctx : AsmCtx) (checkBlacklist : Bool) (s : AsmState)
    (vid : Int) : Bool :=
  !(checkBlacklist && video_en_lista_negra ctx.videos ctx.lista_negra vid) &&
    decide (vid ∉ s.ids_usados) &&
    (match video_a_creador ctx.videos vid with
     | none => false
     | some creador =>
         decide (creador ∉ s.creadores_usados_en_feed) &&
           (decide (1 ≤ ((cache_skills_video ctx.videos vid).filter
              (fun sk => decide (sk ∉ s.skills_usados))).length) ||
            decide (s.skills_usados.length < 3)))

/-- The `while idx < len(pool) and intentos < 150` walk of a VMP/AU/NU slot:
`(consumed entries, accepted id)`. -/
def walkPrimary (ctx : AsmCtx) (checkBlacklist : Bool) (s : AsmState) :
    List Int → Nat → Nat × Option Int
  | [], _ => (0, none)
  | vid :: rest, intentos =>
      if 150 ≤ intentos then (0, none)
      else if acceptsPrimary ctx checkBlacklist s vid then (1, some vid)
      else
        let r := walkPrimary ctx checkBlacklist s rest (intentos + 1)
        (r.1 + 1, r.2)

/-- The acceptance test of one EXPLORE pool entry: not already used, creator
exists and is outside the window (no skill rule, no blacklist recheck). -/
def acceptsExplore (ctx : AsmCtx) (s : AsmState) (vid : Int) : Bool :=
  decide (vid ∉ s.ids_usados) &&
    (match video_a_creador ctx.videos vid with
     | none => false
     | some creador => decide (creador ∉ s.creadores_usados_en_feed))

/-- The fallback walk over the EXPLORE pool (uncapped). -/
def walkExplore (ctx : AsmCtx) (s : AsmState) : List Int → Nat × Option Int
  | [] => (0, none)
  | vid :: rest =>
      if acceptsExplore ctx s vid then (1, some vid)
      else
        let r := walkExplore ctx s rest
        (r.1 + 1, r.2)

/-- The acceptance test of one FW pool entry: not already used, a flow row
exists for the id, and its creator is outside the window. -/
def acceptsFW (ctx : AsmCtx) (s : AsmState) (vid : Int) : Bool :=
  decide (vid ∉ s.ids_usados) &&
    (match ctx.flows.find? (fun f => f.id = vid) with
     | none => false
     | some flow_row => decide (flow_row.user_id ∉ s.creadores_usados_en_feed))

/-- The `while idx_flow < len(pool_flows) and not video_encontrado` walk. -/
def walkFW (ctx : AsmCtx) (s : AsmState) : List Int → Nat × Option Int
  | [] => (0, none)
  | vid :: rest =>
      if acceptsFW ctx s vid then (1, some vid)
      else
        let r := walkFW ctx s rest
        (r.1 + 1, r.2)

/-- The mutations performed at acceptance of a video (also for an id `0`
phantom, which is later dropped by the falsy `if video_id:` append guard):
update `skills_usados`, add the creator to the window set and queue. -/
def registrar_video (ctx : AsmCtx) (s : AsmState) (vid : Int) : AsmState :=
  match video_a_creador ctx.videos vid with
  | some creador =>
      { s with
        skills_usados := pyUnion s.skills_usados (cache_skills_video ctx.videos vid)
        creadores_usados_en_feed := pyAdd s.creadores_usados_en_feed creador
        creadores_por_ventana := s.creadores_por_ventana ++ [creador] }
  | none => s

/-- The mutations performed at acceptance of a flow: add the flow's creator to
the window set and queue (no skill update). -/
def registrar_flow (ctx : AsmCtx) (s : AsmState) (vid : Int) : AsmState :=
  match ctx.flows.find? (fun f => f.id = vid) with
  | some flow_row =>
      { s with
        creadores_usados_en_feed := pyAdd s.creadores_usados_en_feed flow_row.user_id
        creadores_por_ventana := s.creadores_por_ventana ++ [flow_row.user_id] }
  | none => s

/-- The feed dict built for an accepted flow (`datos_flow = flows_df[...]
.iloc[0]`; the id was checked to exist at acceptance, so the `none` branch is
unreachable — Python would raise there). -/
def construir_item_flow (ctx : AsmCtx) (pos : Nat) (tipo_slot : String)
    (vid : Int) : FeedItem :=
  match ctx.flows.find? (fun f => f.id = vid) with
  | some f =>
      { position := pos, video_id := vid, tipo := "challenge"
        patron_type := tipo_slot, video_url := f.video
        creator_name := f.creator_name, city := f.city, title := f.name
        description := String.mk (f.description.data.take 100)
        talent_type := f.talent_type
        days_old := pyIntTrunc f.days_since_creation, views := 0, rating := 0 }
  | none =>
      { position := pos, video_id := vid, tipo := "challenge"
        patron_type := tipo_slot, video_url := "", creator_name := ""
        city := "", title := "", description := "", talent_type := ""
        days_old := 0, views := 0, rating := 0 }

/-- The feed dict built for an accepted resume (`datos_video =
videos_df[...].iloc[0]`; first matching row; acceptance guarantees a row
exists, so the `none` branch is unreachable). -/
def construir_item_video (ctx : AsmCtx) (pos : Nat) (tipo_slot : String)
    (vid : Int) : FeedItem :=
  match ctx.videos.find? (fun v => v.id = vid) with
  | some v =>
      { position := pos, video_id := vid, tipo := "resume"
        patron_type := tipo_slot, video_url := v.video
        creator_name := v.creator_name, city := v.city, title := ""
        description := "", talent_type := ""
        days_old := v.days_since_creation, views := v.views
        rating := v.avg_rating }
  | none =>
      { position := pos, video_id := vid, tipo := "resume"
        patron_type := tipo_slot, video_url := "", creator_name := ""
        city := "", title := "", description := "", talent_type := ""
        days_old := 0, views := 0, rating := 0 }

/-- The window maintenance run at the top of every slot: every 12 feed items,
drop the first 12 creators from the window queue and from
`creadores_usados_en_feed`. -/
def ventana_diversidad (s : AsmState) : AsmState :=
  if 0 < s.feed.length ∧ s.feed.length % VENTANA_DIVERSIDAD_CREADORES = 0 then
    if VENTANA_DIVERSIDAD_CREADORES ≤ s.creadores_por_ventana.length then
      let creadores_a_remover :=
        s.creadores_por_ventana.take VENTANA_DIVERSIDAD_CREADORES
      { s with
        creadores_usados_en_feed := s.creadores_usados_en_feed.filter
          (fun c => decide (c ∉ creadores_a_remover))
        creadores_por_ventana :=
          s.creadores_por_ventana.drop VENTANA_DIVERSIDAD_CREADORES }
    else s
  else s

/-- A VMP/AU/NU slot body: walk the primary pool from its cursor; on a falsy
result (`None` or `0`) fall back to the EXPLORE pool (walking the empty
suffix when the explore cursor is exhausted, which accepts nothing — the
source's `idx_explore < len(...)` pre-check).  Returns the advanced primary
cursor, the updated state (acceptance mutations applied) and the final
`video_id`. -/
def slot_video_core (ctx : AsmCtx) (s0 : AsmState) (checkBlacklist : Bool)
    (pool : List Int) (idx0 : Nat) : Nat × AsmState × Option Int :=
  let r := walkPrimary ctx checkBlacklist s0 (pool.drop idx0) 0
  let idx1 := idx0 + r.1
  let s1 := match r.2 with
    | some vid => registrar_video ctx s0 vid
    | none => s0
  if optTruthy r.2 then (idx1, s1, r.2)
  else
    let r2 := walkExplore ctx s1 (ctx.pool_exploracion.drop s1.idx_explore)
    let s2 := { s1 with idx_explore := s1.idx_explore + r2.1 }
    let s3 := match r2.2 with
      | some vid => registrar_video ctx s2 vid
      | none => s2
    (idx1, s3, match r2.2 with
      | some v => some v
      | none => r.2)

/-- The `if video_id:` append: a truthy id is appended to the feed (position
`len+1`) and added to `ids_usados`; `None` or `0` appends nothing. -/
def agregar_al_feed (ctx : AsmCtx) (s : AsmState) (tipo_slot : String)
    (video_id : Option Int) (es_flow : Bool) : AsmState :=
  match video_id with
  | some vid =>
      if vid ≠ 0 then
        let item := if es_flow then
            construir_item_flow ctx (s.feed.length + 1) tipo_slot vid
          else construir_item_video ctx (s.feed.length + 1) tipo_slot vid
        { s with feed := s.feed ++ [item], ids_usados := pyAdd s.ids_usados vid }
      else s
  | none => s

/-- One slot of the assembly loop: the `len(feed) >= n_videos` break, the
diversity-window maintenance, the slot-typed selection and the append. -/
def procesar_slot (ctx : AsmCtx) (s : AsmState) (tipo_slot : String) : AsmState :=
  if ctx.n_videos ≤ s.feed.length then s
  else
    let s := ventana_diversidad s
    if tipo_slot = "FW" then
      let r := walkFW ctx s (ctx.pool_flows.drop s.idx_flow)
      let s1 := { s with idx_flow := s.idx_flow + r.1 }
      let s2 := match r.2 with
        | some vid => registrar_flow ctx s1 vid
        | none => s1
      agregar_al_feed ctx s2 tipo_slot r.2 true
    else if tipo_slot = "VMP" then
      let r := slot_video_core ctx s false ctx.pool_vmp s.idx_vmp
      agregar_al_feed ctx { r.2.1 with idx_vmp := r.1 } tipo_slot r.2.2 false
    else if tipo_slot = "AU" then
      let r := slot_video_core ctx s true ctx.pool_au s.idx_au
      agregar_al_feed ctx { r.2.1 with idx_au := r.1 } tipo_slot r.2.2 false
    else if tipo_slot = "NU" then
      let r := slot_video_core ctx s true ctx.pool_nu s.idx_nu
      agregar_al_feed ctx { r.2.1 with idx_nu := r.1 } tipo_slot r.2.2 false
    else s

/-- The initial assembler state. -/
def asmInit : AsmState :=
  ⟨[], [], [], [], [], 0, 0, 0, 0, 0⟩

/-- The feed metrics block (`metricas`).  `creadores_diversos` is computed by
the source but never reported, so it is not carried. -/
structure ScrollMetricas where
  total_videos : Nat
  resumes_count : Nat
  challenges_count : Nat
  unique_creators : Nat
  avg_views : ℚ
  avg_rating : ℚ
  execution_time : ℚ
  catalog_coverage : ℚ
  feed_coverage : ℚ
  new_content_pct : ℚ
  skill_diversity : ℚ
  creator_diversity : ℚ
  total_catalog : Nat
  available_catalog : Int
  pool_vmp_size : Nat
  pool_nu_size : Nat
  pool_au_size : Nat
  pool_flows_size : Nat
  pool_explore_size : Nat
  stats_vmp : BanditStatsData
  stats_au : BanditStatsData
  stats_nu : BanditStatsData

/-! ### The request context and the exclusion set, factored out of
`generar_scroll_infinito` (the function body
builds its context through `scrollCtx`, so `generar_feed_eq` below is `rfl`). -/

/-- `excludedIds = preferenceView.seenItemIds ∪ excludedIdsInput` as
`generar_scroll_infinito` computes it (lines 1036–1044). -/
def scrollIdsExcluir (interactions : List Interaction)
    (connections : List Connection) (env : ScrollEnv) (user_id : Int)
    (videos_excluidos : List Int) : List Int :=
  let prefs_usuario := obtener_preferencias_usuario_rapido interactions
    connections env.influencia_social env.attrs user_id
  let videos_excluidos_set := pySet videos_excluidos
  if videos_excluidos.isEmpty then prefs_usuario.vistos
  else pyUnion prefs_usuario.vistos videos_excluidos_set

/-- The per-request assembler context (tables, blacklist, the five pools and
the feed length) exactly as `generar_scroll_infinito` builds it. -/
def scrollCtx (videos : List VideoRow) (flows : List FlowRow)
    (interactions : List Interaction) (connections : List Connection)
    (lista_negra : List String) (env : ScrollEnv) (user_id : Int)
    (videos_excluidos : List Int) (incluir_fw : Bool) : AsmCtx :=
  let n_videos := VIDEOS_POR_RESPUESTA
  let prefs_usuario := obtener_preferencias_usuario_rapido interactions
    connections env.influencia_social env.attrs user_id
  let videos_excluidos_set := pySet videos_excluidos
  let ids_excluir := if videos_excluidos.isEmpty then prefs_usuario.vistos
    else pyUnion prefs_usuario.vistos videos_excluidos_set
  let creadores_usados : List Int := []
  let pool_vmp := seleccionar_vmp_rapido videos env ids_excluir prefs_usuario
    creadores_usados 110
  let pool_nu := seleccionar_nu_rapido videos env ids_excluir prefs_usuario
    creadores_usados 95
  let excluir_para_au := pyUnion (pyUnion ids_excluir (pySet pool_vmp)) (pySet pool_nu)
  let pool_au := seleccionar_au_rapido videos env excluir_para_au prefs_usuario
    creadores_usados 170
  let pool_flows := if incluir_fw then
      seleccionar_flows flows env ids_excluir creadores_usados 40
    else []
  let pool_exploracion := seleccionar_boost_exploracion videos env
    (pyUnion excluir_para_au (pySet pool_au)) creadores_usados 75
  ⟨videos, flows, lista_negra, pool_vmp, pool_nu, pool_au, pool_flows,
    pool_exploracion, n_videos⟩

/-- The final assembler state of a request: the slot pattern, repeated
`ciclos = 24 / 6 + 1` times, folded through `procesar_slot` from the empty
state. -/
def scrollFinalState (videos : List VideoRow) (flows : List FlowRow)
    (interactions : List Interaction) (connections : List Connection)
    (lista_negra : List String) (env : ScrollEnv) (user_id : Int)
    (videos_excluidos : List Int) (incluir_fw : Bool) : AsmState :=
  ((List.replicate (VIDEOS_POR_RESPUESTA / PATRON_FEED.length + 1)
    PATRON_FEED).flatten).foldl
    (procesar_slot (scrollCtx videos flows interactions connections lista_negra
      env user_id videos_excluidos incluir_fw)) asmInit

/-- `generar_scroll_infinito(user_id, n_videos, videos_excluidos, incluir_fw)`.

The first statement of the source overwrites the `n_videos` argument with
`self.videos_por_respuesta` (= `VIDEOS_POR_RESPUESTA` = 24); the shadowing
`let` below reproduces that, so the argument is dead.

The source's nested `for ciclo / for pos_patron` loop `break`s out of the
inner loop once `len(feed) >= n_videos` and re-checks at every iteration; as
the feed never shrinks this is the same as folding `procesar_slot` (whose
first test is that check) over `ciclos` copies of the pattern. -/
def generar_scroll_infinito (videos : List VideoRow) (flows : List FlowRow)
    (interactions : List Interaction) (connections : List Connection)
    (lista_negra : List String) (env : ScrollEnv) (user_id : Int)
    (n_videos : Nat) (videos_excluidos : List Int) (incluir_fw : Bool) :
    List FeedItem × ScrollMetricas :=
  let n_videos := VIDEOS_POR_RESPUESTA
  let prefs_usuario := obtener_preferencias_usuario_rapido interactions
    connections env.influencia_social env.attrs user_id
  let videos_excluidos_set := pySet videos_excluidos
  let ctx := scrollCtx videos flows interactions connections lista_negra env
    user_id videos_excluidos incluir_fw
  let pool_vmp := ctx.pool_vmp
  let pool_nu := ctx.pool_nu
  let pool_au := ctx.pool_au
  let pool_flows := ctx.pool_flows
  let pool_exploracion := ctx.pool_exploracion
  let final := scrollFinalState videos flows interactions connections
    lista_negra env user_id videos_excluidos incluir_fw
  let feed := final.feed
  -- metrics
  let conteo_resumes := (feed.filter (fun it => it.tipo = "resume")).length
  let conteo_challenges := (feed.filter (fun it => it.tipo = "challenge")).length
  let catalogo_total := videos.length
  let catalogo_disponible : Int :=
    (catalogo_total : Int) - prefs_usuario.vistos.length -
      (if videos_excluidos.isEmpty then 0
       else (pySetDiff videos_excluidos_set prefs_usuario.vistos).length)
  let todos_pools := pyUnion (pyUnion (pyUnion (pyUnion (pySet pool_vmp)
    (pySet pool_nu)) (pySet pool_au)) (pySet pool_flows)) (pySet pool_exploracion)
  let cobertura_catalogo :=
    (todos_pools.length : ℚ) / (max catalogo_disponible 1 : Int) * 100
  let cobertura_feed := (final.ids_usados.length : ℚ) / (max n_videos 1 : Nat) * 100
  let conteo_contenido_nuevo := (feed.filter (fun it => it.days_old ≤ 45)).length
  let ratio_contenido_nuevo : ℚ := if feed.length ≠ 0 then
      (conteo_contenido_nuevo : ℚ) / feed.length * 100
    else 0
  let skills_diversos := feed.foldl (fun acc it =>
    if (ctx.videos.filter (fun v => v.id = it.video_id)).isEmpty then acc
    else pyUnion acc (cache_skills_video ctx.videos it.video_id)) ([] : List String)
  let diversidad_skills_pct :=
    (skills_diversos.length : ℚ) / (max (feed.length * 2) 1 : Nat) * 100
  let diversidad_creadores :=
    (final.creadores_usados_en_feed.length : ℚ) / (max feed.length 1 : Nat) * 100
  let no_flow := feed.filter (fun it => it.tipo ≠ "FW")
  let avg_views : ℚ := if no_flow.isEmpty then 0
    else listMean (no_flow.map (fun it => (it.views : ℚ)))
  let avg_rating : ℚ := if no_flow.isEmpty then 0
    else listMean (no_flow.map (fun it => it.rating))
  (feed,
    { total_videos := feed.length
      resumes_count := conteo_resumes
      challenges_count := conteo_challenges
      unique_creators := final.creadores_usados_en_feed.length
      avg_views := avg_views
      avg_rating := avg_rating
      execution_time := pyRound 3 env.execution_time
      catalog_coverage := pyRound 2 cobertura_catalogo
      feed_coverage := pyRound 2 cobertura_feed
      new_content_pct := pyRound 2 ratio_contenido_nuevo
      skill_diversity := pyRound 2 diversidad_skills_pct
      creator_diversity := pyRound 2 diversidad_creadores
      total_catalog := catalogo_total
      available_catalog := catalogo_disponible
      pool_vmp_size := pool_vmp.length
      pool_nu_size := pool_nu.length
      pool_au_size := pool_au.length
      pool_flows_size := pool_flows.length
      pool_explore_size := pool_exploracion.length
      stats_vmp := env.stats_vmp
      stats_au := env.stats_au
      stats_nu := env.stats_nu })

/-! ### Flows-only selection (src/services/recommendation.py, 1389–1489)

`_obtener_flows_vistos_usuario` queries the external `activity_log` store; its
result enters as `flows_vistos`.  The per-flow uniform draws `U[0,20)` consumed
when the connection bonus does not fire enter as `draw`. -/

/-- `_seleccionar_flows_para_usuario(user_id, n, excluded_ids)`: exclude the
viewed and caller-excluded flows and the blacklist (falling back to the
blacklist-only pool when exhausted), score each flow
`max(0, (90 − days)/90·30)` plus `30` **if the flow's creator is in
`prefs_usuario.get('conexiones', set())`** — a key the preferences dict never
holds, see `prefsGetIntSet` — else the uniform draw; return the top
`min(n, len)` ids. -/
def seleccionar_flows_para_usuario (flows : List FlowRow)
    (lista_negra : List String) (flows_vistos : List Int)
    (interactions : List Interaction) (connections : List Connection)
    (influencia_social : Int → ℚ) (attrs : SampledAttrs) (user_id : Int)
    (draw : Int → ℚ) (n : Nat) (excluded_ids : List Int) : List Int :=
  if flows.isEmpty then []
  else
    let flows_a_excluir := pyUnion (pySet flows_vistos) (pySet excluded_ids)
    let candidatos := flows.filter (fun f =>
      decide (f.id ∉ flows_a_excluir) && decide (f.video ∉ lista_negra))
    let candidatos := if candidatos.isEmpty then
        flows.filter (fun f => decide (f.video ∉ lista_negra))
      else candidatos
    if candidatos.isEmpty then []
    else
      let prefs_usuario := obtener_preferencias_usuario_rapido interactions
        connections influencia_social attrs user_id
      let score_relevancia := fun f : FlowRow =>
        max 0 ((90 - f.days_since_creation) / 90 * 30) +
          (if f.user_id ∈ prefsGetIntSet prefs_usuario "conexiones" then 30
           else draw f.id)
      (nlargestBy score_relevancia (min n candidatos.length) candidatos).map
        (fun f => f.id)

/-- Modelled from the spec (claim C9's asserted behaviour, for comparison):
the same selection pipeline but scoring with the connection bonus read from
the user's **social neighbourhood** (`red_social`), which is what the claim's
"user's connections" denotes. -/
def c9ClaimSelection (flows : List FlowRow) (lista_negra : List String)
    (flows_vistos : List Int) (interactions : List Interaction)
    (connections : List Connection) (influencia_social : Int → ℚ)
    (attrs : SampledAttrs) (user_id : Int) (draw : Int → ℚ) (n : Nat)
    (excluded_ids : List Int) : List Int :=
  if flows.isEmpty then []
  else
    let flows_a_excluir := pyUnion (pySet flows_vistos) (pySet excluded_ids)
    let candidatos := flows.filter (fun f =>
      decide (f.id ∉ flows_a_excluir) && decide (f.video ∉ lista_negra))
    let candidatos := if candidatos.isEmpty then
        flows.filter (fun f => decide (f.video ∉ lista_negra))
      else candidatos
    if candidatos.isEmpty then []
    else
      let prefs_usuario := obtener_preferencias_usuario_rapido interactions
        connections influencia_social attrs user_id
      let score_relevancia := fun f : FlowRow =>
        max 0 ((90 - f.days_since_creation) / 90 * 30) +
          (if f.user_id ∈ prefs_usuario.red_social then 30 else draw f.id)
      (nlargestBy score_relevancia (min n candidatos.length) candidatos).map
        (fun f => f.id)

/-- Modelled from the spec (amended): the selection pipeline with the bonus
branch dead — every flow scores `max(0, (90 − days)/90·30)` plus its uniform
draw, independently of the user's connections. -/
def flowsOnlyAmendedSelection (flows : List FlowRow) (lista_negra : List String)
    (flows_vistos : List Int) (draw : Int → ℚ) (n : Nat)
    (excluded_ids : List Int) : List Int :=
  if flows.isEmpty then []
  else
    let flows_a_excluir := pyUnion (pySet flows_vistos) (pySet excluded_ids)
    let candidatos := flows.filter (fun f =>
      decide (f.id ∉ flows_a_excluir) && decide (f.video ∉ lista_negra))
    let candidatos := if candidatos.isEmpty then
        flows.filter (fun f => decide (f.video ∉ lista_negra))
      else candidatos
    if candidatos.isEmpty then []
    else
      let score_relevancia := fun f : FlowRow =>
        max 0 ((90 - f.days_since_creation) / 90 * 30) + draw f.id
      (nlargestBy score_relevancia (min n candidatos.length) candidatos).map
        (fun f => f.id)

/-! ## Verification layer for the assembler claims (C1, C2, C3) -/

/-- The creator id of a feed entry, read from the snapshot exactly as the
assembler read it at acceptance time: the first matching flow row for a
challenge, the `video_a_creador` cache for a resume. -/
def feedCreator (ctx : AsmCtx) (it : FeedItem) : Option Int :=
  if it.tipo = "challenge" then
    (ctx.flows.find? (fun f => f.id = it.video_id)).map (fun f => f.user_id)
  else video_a_creador ctx.videos it.video_id

/-- Claim C1 as stated: within every window of 12 consecutive feed positions
all creator ids are distinct (positions `i`, `j` share a window iff
`|i − j| < 12`). -/
def slidingWindowDiverse (ctx : AsmCtx) (feed : List FeedItem) : Prop :=
  ∀ i j : Nat, (hi : i < feed.length) → (hj : j < feed.length) → i ≠ j →
    i < j + VENTANA_DIVERSIDAD_CREADORES → j < i + VENTANA_DIVERSIDAD_CREADORES →
    feedCreator ctx (feed.get ⟨i, hi⟩) ≠ feedCreator ctx (feed.get ⟨j, hj⟩)

/-- What the window maintenance actually enforces: creators are pairwise
distinct within each *aligned* block of 12 feed positions (0-based indices
`i`, `j` in the same block iff `i / 12 = j / 12`). -/
def blockDiverse (ctx : AsmCtx) (feed : List FeedItem) : Prop :=
  ∀ i j : Nat, (hi : i < feed.length) → (hj : j < feed.length) → i ≠ j →
    i / VENTANA_DIVERSIDAD_CREADORES = j / VENTANA_DIVERSIDAD_CREADORES →
    feedCreator ctx (feed.get ⟨i, hi⟩) ≠ feedCreator ctx (feed.get ⟨j, hj⟩)

/-- The union of the five candidate pools. -/
def inAnyPool (ctx : AsmCtx) (vid : Int) : Prop :=
  vid ∈ ctx.pool_vmp ∨ vid ∈ ctx.pool_nu ∨ vid ∈ ctx.pool_au ∨
    vid ∈ ctx.pool_flows ∨ vid ∈ ctx.pool_exploracion

/-- The assembly-loop invariant behind claims C1–C3: the window queue holds
the creators of the feed's most recent entries, the queue's length is the feed
length minus `12·(drops so far)`, queue members are distinct and inside
`creadores_usados_en_feed`, the feed is creator-diverse within aligned
12-blocks, and the feed's ids are distinct, tracked in `ids_usados`, and drawn
from the candidate pools. -/
structure AsmInv (ctx : AsmCtx) (s : AsmState) : Prop where
  q_hist : ∃ k, VENTANA_DIVERSIDAD_CREADORES * k +
    s.creadores_por_ventana.length = s.feed.length
  q_map : (s.feed.drop (s.feed.length - s.creadores_por_ventana.length)).map
    (feedCreator ctx) = s.creadores_por_ventana.map some
  q_nodup : s.creadores_por_ventana.Nodup
  q_sub : ∀ c ∈ s.creadores_por_ventana, c ∈ s.creadores_usados_en_feed
  h_div : blockDiverse ctx s.feed
  h_ids : ∀ it ∈ s.feed, it.video_id ∈ s.ids_usados
  h_ids_nodup : (s.feed.map (fun it => it.video_id)).Nodup
  h_pools : ∀ it ∈ s.feed, inAnyPool ctx it.video_id

theorem asmInit_inv (ctx : AsmCtx) : AsmInv ctx asmInit := by
  refine ⟨⟨0, rfl⟩, rfl, List.nodup_nil, ?_, ?_, ?_, List.nodup_nil, ?_⟩
  · intro c hc
    simp [asmInit] at hc
  · intro i j hi hj _ _
    simp only [asmInit, List.length_nil] at hi
    omega
  · intro it hit
    simp [asmInit] at hit
  · intro it hit
    simp [asmInit] at hit

/-- A successful `video_a_creador` lookup witnesses a catalog row. -/
theorem video_a_creador_mem {videos : List VideoRow} {vid c : Int}
    (h : video_a_creador videos vid = some c) :
    ∃ r ∈ videos, r.id = vid ∧ r.user_id = c := by
  unfold video_a_creador at h
  rcases hlast : (videos.filter (fun v => v.id = vid)).getLast? with _ | r
  · rw [hlast] at h
    simp at h
  · rw [hlast] at h
    have huser : r.user_id = c := by
      simpa using h
    have hmem : r ∈ videos.filter (fun v => v.id = vid) := by
      have := List.mem_getLast?_eq_getLast (l := videos.filter (fun v => v.id = vid))
        (x := r) hlast
      obtain ⟨hne, hr⟩ := this
      exact hr ▸ List.getLast_mem hne
    have h1 := (List.mem_filter.mp hmem).1
    have h2 := (List.mem_filter.mp hmem).2
    exact ⟨r, h1, by simpa using h2, huser⟩

/-- A successful flow lookup witnesses a flow row. -/
theorem flows_find_mem {flows : List FlowRow} {vid : Int} {row : FlowRow}
    (h : flows.find? (fun f => f.id = vid) = some row) :
    row ∈ flows ∧ row.id = vid := by
  refine ⟨List.mem_of_find?_eq_some h, ?_⟩
  have := List.find?_some h
  simpa using this

theorem acceptsPrimary_facts {ctx : AsmCtx} {cb : Bool} {s : AsmState} {vid : Int}
    (h : acceptsPrimary ctx cb s vid = true) :
    vid ∉ s.ids_usados ∧
      ∃ c, video_a_creador ctx.videos vid = some c ∧
        c ∉ s.creadores_usados_en_feed := by
  unfold acceptsPrimary at h
  rcases hvc : video_a_creador ctx.videos vid with _ | c
  · rw [hvc] at h
    simp at h
  · rw [hvc] at h
    simp only [Bool.and_eq_true, decide_eq_true_eq, Bool.or_eq_true] at h
    refine ⟨h.1.2, c, ?_, h.2.1⟩
    first
    | rfl
    | exact hvc

theorem acceptsExplore_facts {ctx : AsmCtx} {s : AsmState} {vid : Int}
    (h : acceptsExplore ctx s vid = true) :
    vid ∉ s.ids_usados ∧
      ∃ c, video_a_creador ctx.videos vid = some c ∧
        c ∉ s.creadores_usados_en_feed := by
  unfold acceptsExplore at h
  rcases hvc : video_a_creador ctx.videos vid with _ | c
  · rw [hvc] at h
    simp at h
  · rw [hvc] at h
    simp only [Bool.and_eq_true, decide_eq_true_eq] at h
    refine ⟨h.1, c, ?_, h.2⟩
    first
    | rfl
    | exact hvc

theorem acceptsFW_facts {ctx : AsmCtx} {s : AsmState} {vid : Int}
    (h : acceptsFW ctx s vid = true) :
    vid ∉ s.ids_usados ∧
      ∃ row, ctx.flows.find? (fun f => f.id = vid) = some row ∧
        row.user_id ∉ s.creadores_usados_en_feed := by
  unfold acceptsFW at h
  rcases hvc : ctx.flows.find? (fun f => f.id = vid) with _ | row
  · rw [hvc] at h
    simp at h
  · rw [hvc] at h
    simp only [Bool.and_eq_true, decide_eq_true_eq] at h
    refine ⟨h.1, row, ?_, h.2⟩
    first
    | rfl
    | exact hvc

theorem walkPrimary_accept (ctx : AsmCtx) (cb : Bool) (s : AsmState) :
    ∀ (pool : List Int) (intentos c : Nat) (v : Int),
      walkPrimary ctx cb s pool intentos = (c, some v) →
        v ∈ pool ∧ acceptsPrimary ctx cb s v = true := by
  intro pool
  induction pool with
  | nil =>
      intro intentos c v h
      simp [walkPrimary] at h
  | cons vid rest ih =>
      intro intentos c v h
      unfold walkPrimary at h
      by_cases h150 : 150 ≤ intentos
      · rw [if_pos h150] at h
        simp at h
      · rw [if_neg h150] at h
        by_cases hacc : acceptsPrimary ctx cb s vid = true
        · rw [if_pos hacc] at h
          have hv : vid = v := by
            have := congrArg Prod.snd h
            simpa using this
          subst hv
          exact ⟨List.mem_cons_self vid rest, hacc⟩
        · rw [if_neg hacc] at h
          rcases hr : walkPrimary ctx cb s rest (intentos + 1) with ⟨c', o⟩
          rw [hr] at h
          have ho : o = some v := by
            have := congrArg Prod.snd h
            simpa using this
          subst ho
          have := ih (intentos + 1) c' v hr
          exact ⟨List.mem_cons_of_mem vid this.1, this.2⟩

theorem walkExplore_accept (ctx : AsmCtx) (s : AsmState) :
    ∀ (pool : List Int) (c : Nat) (v : Int),
      walkExplore ctx s pool = (c, some v) →
        v ∈ pool ∧ acceptsExplore ctx s v = true := by
  intro pool
  induction pool with
  | nil =>
      intro c v h
      simp [walkExplore] at h
  | cons vid rest ih =>
      intro c v h
      unfold walkExplore at h
      by_cases hacc : acceptsExplore ctx s vid = true
      · rw [if_pos hacc] at h
        have hv : vid = v := by
          have := congrArg Prod.snd h
          simpa using this
        subst hv
        exact ⟨List.mem_cons_self vid rest, hacc⟩
      · rw [if_neg hacc] at h
        rcases hr : walkExplore ctx s rest with ⟨c', o⟩
        rw [hr] at h
        have ho : o = some v := by
          have := congrArg Prod.snd h
          simpa using this
        subst ho
        have := ih c' v hr
        exact ⟨List.mem_cons_of_mem vid this.1, this.2⟩

theorem walkFW_accept (ctx : AsmCtx) (s : AsmState) :
    ∀ (pool : List Int) (c : Nat) (v : Int),
      walkFW ctx s pool = (c, some v) →
        v ∈ pool ∧ acceptsFW ctx s v = true := by
  intro pool
  induction pool with
  | nil =>
      intro c v h
      simp [walkFW] at h
  | cons vid rest ih =>
      intro c v h
      unfold walkFW at h
      by_cases hacc : acceptsFW ctx s vid = true
      · rw [if_pos hacc] at h
        have hv : vid = v := by
          have := congrArg Prod.snd h
          simpa using this
        subst hv
        exact ⟨List.mem_cons_self vid rest, hacc⟩
      · rw [if_neg hacc] at h
        rcases hr : walkFW ctx s rest with ⟨c', o⟩
        rw [hr] at h
        have ho : o = some v := by
          have := congrArg Prod.snd h
          simpa using this
        subst ho
        have := ih c' v hr
        exact ⟨List.mem_cons_of_mem vid this.1, this.2⟩

theorem inv_unchanged {ctx : AsmCtx} {s t : AsmState} (inv : AsmInv ctx s)
    (hf : t.feed = s.feed) (hi : t.ids_usados = s.ids_usados)
    (hset : t.creadores_usados_en_feed = s.creadores_usados_en_feed)
    (hq : t.creadores_por_ventana = s.creadores_por_ventana) : AsmInv ctx t := by
  refine ⟨?_, ?_, ?_, ?_, ?_, ?_, ?_, ?_⟩
  · rw [hq, hf]
    exact inv.q_hist
  · rw [hq, hf]
    exact inv.q_map
  · rw [hq]
    exact inv.q_nodup
  · rw [hq, hset]
    exact inv.q_sub
  · rw [hf]
    exact inv.h_div
  · rw [hf, hi]
    exact inv.h_ids
  · rw [hf]
    exact inv.h_ids_nodup
  · rw [hf]
    exact inv.h_pools

theorem ventana_fields (s : AsmState) :
    (ventana_diversidad s).feed = s.feed ∧
      (ventana_diversidad s).ids_usados = s.ids_usados := by
  unfold ventana_diversidad
  split_ifs <;> exact ⟨rfl, rfl⟩

theorem ventana_inv {ctx : AsmCtx} {s : AsmState} (inv : AsmInv ctx s) :
    AsmInv ctx (ventana_diversidad s) := by
  unfold ventana_diversidad
  split_ifs with h1 h2
  · -- the drop: remove the first 12 queue entries from the queue and the set
    obtain ⟨k, hk⟩ := inv.q_hist
    replace hk : 12 * k + s.creadores_por_ventana.length = s.feed.length := hk
    replace h2 : 12 ≤ s.creadores_por_ventana.length := h2
    refine ⟨⟨k + 1, ?_⟩, ?_, ?_, ?_, inv.h_div, inv.h_ids, inv.h_ids_nodup,
      inv.h_pools⟩
    · simp only [List.length_drop, VENTANA_DIVERSIDAD_CREADORES]
      omega
    · simp only [List.length_drop, VENTANA_DIVERSIDAD_CREADORES]
      have harith : s.feed.length - (s.creadores_por_ventana.length - 12) =
          (s.feed.length - s.creadores_por_ventana.length) + 12 := by
        omega
      rw [harith, ← List.drop_drop, List.map_drop, inv.q_map, ← List.map_drop]
    · exact inv.q_nodup.sublist (List.drop_sublist _ _)
    · intro c hc
      have hcq : c ∈ s.creadores_por_ventana := List.drop_subset _ _ hc
      have hcset := inv.q_sub c hcq
      have hnotin : c ∉ s.creadores_por_ventana.take VENTANA_DIVERSIDAD_CREADORES := by
        intro hmem
        exact List.disjoint_take_drop inv.q_nodup (le_refl VENTANA_DIVERSIDAD_CREADORES)
          hmem hc
      exact List.mem_filter.mpr ⟨hcset, by simpa using hnotin⟩
  · exact inv
  · exact inv

theorem fc_mem_queue {ctx : AsmCtx} {feed : List FeedItem} {queue : List Int}
    (hqmap : (feed.drop (feed.length - queue.length)).map (feedCreator ctx) =
      queue.map some)
    {i : Nat} (hi : i < feed.length) (hge : feed.length - queue.length ≤ i) :
    ∃ cq ∈ queue, feedCreator ctx (feed.get ⟨i, hi⟩) = some cq := by
  set m := feed.length - queue.length with hm
  have hlt : i - m < (feed.drop m).length := by
    simp only [List.length_drop]
    omega
  have hget : (feed.drop m).get ⟨i - m, hlt⟩ = feed.get ⟨i, hi⟩ := by
    simp only [List.get_eq_getElem, List.getElem_drop]
    congr 1
    omega
  have hmem : feedCreator ctx ((feed.drop m).get ⟨i - m, hlt⟩) ∈
      (feed.drop m).map (feedCreator ctx) :=
    List.mem_map_of_mem _ (List.get_mem _ _ _)
  rw [hqmap, hget] at hmem
  obtain ⟨cq, hcq, heq⟩ := List.mem_map.mp hmem
  exact ⟨cq, hcq, heq.symm⟩

theorem construir_item_flow_vid (ctx : AsmCtx) (pos : Nat) (tipo_slot : String)
    (vid : Int) : (construir_item_flow ctx pos tipo_slot vid).video_id = vid := by
  unfold construir_item_flow
  cases ctx.flows.find? (fun f => f.id = vid) <;> rfl

theorem construir_item_video_vid (ctx : AsmCtx) (pos : Nat) (tipo_slot : String)
    (vid : Int) : (construir_item_video ctx pos tipo_slot vid).video_id = vid := by
  unfold construir_item_video
  cases ctx.videos.find? (fun v => v.id = vid) <;> rfl

theorem feedCreator_item_flow (ctx : AsmCtx) (pos : Nat) (tipo_slot : String)
    (vid : Int) : feedCreator ctx (construir_item_flow ctx pos tipo_slot vid) =
      (ctx.flows.find? (fun f => f.id = vid)).map (fun f => f.user_id) := by
  have htipo : (construir_item_flow ctx pos tipo_slot vid).tipo = "challenge" := by
    unfold construir_item_flow
    cases ctx.flows.find? (fun f => f.id = vid) <;> rfl
  unfold feedCreator
  rw [htipo, if_pos rfl, construir_item_flow_vid]

theorem feedCreator_item_video (ctx : AsmCtx) (pos : Nat) (tipo_slot : String)
    (vid : Int) : feedCreator ctx (construir_item_video ctx pos tipo_slot vid) =
      video_a_creador ctx.videos vid := by
  have htipo : (construir_item_video ctx pos tipo_slot vid).tipo = "resume" := by
    unfold construir_item_video
    cases ctx.videos.find? (fun v => v.id = vid) <;> rfl
  unfold feedCreator
  rw [htipo, if_neg (by decide), construir_item_video_vid]

theorem inv_append {ctx : AsmCtx} {s t : AsmState} (inv : AsmInv ctx s)
    {vid c : Int} {item : FeedItem}
    (ht_feed : t.feed = s.feed ++ [item])
    (ht_ids : t.ids_usados = pyAdd s.ids_usados vid)
    (ht_set : t.creadores_usados_en_feed = pyAdd s.creadores_usados_en_feed c)
    (ht_queue : t.creadores_por_ventana = s.creadores_por_ventana ++ [c])
    (hvid_item : item.video_id = vid)
    (hcre : feedCreator ctx item = some c)
    (hc : c ∉ s.creadores_usados_en_feed)
    (hid : vid ∉ s.ids_usados)
    (hpool : inAnyPool ctx vid) : AsmInv ctx t := by
  obtain ⟨k, hk⟩ := inv.q_hist
  replace hk : 12 * k + s.creadores_por_ventana.length = s.feed.length := hk
  have hqle : s.creadores_por_ventana.length ≤ s.feed.length := by omega
  have hcq : c ∉ s.creadores_por_ventana := fun hmem => hc (inv.q_sub c hmem)
  -- an index sharing the aligned block of the new position lies in the
  -- suffix covered by the window queue
  have hblock_low : ∀ x : Nat, x < s.feed.length →
      x / VENTANA_DIVERSIDAD_CREADORES =
        s.feed.length / VENTANA_DIVERSIDAD_CREADORES →
      s.feed.length - s.creadores_por_ventana.length ≤ x := by
    intro x _ hdiv
    replace hdiv : x / 12 = s.feed.length / 12 := hdiv
    omega
  -- the creator of any index in the queue-covered suffix differs from `c`
  have hsuffix_ne : ∀ (x : Nat) (hx : x < s.feed.length),
      s.feed.length - s.creadores_por_ventana.length ≤ x →
      feedCreator ctx (s.feed.get ⟨x, hx⟩) ≠ some c := by
    intro x hx hge heq
    obtain ⟨cq, hcqmem, hcqeq⟩ := fc_mem_queue inv.q_map hx hge
    rw [hcqeq] at heq
    have : cq = c := by
      simpa using heq
    exact hcq (this ▸ hcqmem)
  refine ⟨⟨k, ?_⟩, ?_, ?_, ?_, ?_, ?_, ?_, ?_⟩
  · rw [ht_feed, ht_queue]
    simp only [List.length_append, List.length_singleton,
      VENTANA_DIVERSIDAD_CREADORES]
    omega
  · rw [ht_feed, ht_queue]
    simp only [List.length_append, List.length_singleton]
    have harith : s.feed.length + 1 - (s.creadores_por_ventana.length + 1) =
        s.feed.length - s.creadores_por_ventana.length := by
      omega
    rw [harith]
    rw [List.drop_append_of_le_length (by omega)]
    rw [List.map_append, inv.q_map, List.map_append]
    simp [hcre]
  · rw [ht_queue]
    refine List.Nodup.append inv.q_nodup (List.nodup_singleton c) ?_
    intro x hx hx2
    simp only [List.mem_singleton] at hx2
    subst hx2
    exact hcq hx
  · rw [ht_queue, ht_set]
    intro x hx
    rcases List.mem_append.mp hx with hx | hx
    · exact (mem_pyAdd).mpr (Or.inl (inv.q_sub x hx))
    · simp only [List.mem_singleton] at hx
      exact (mem_pyAdd).mpr (Or.inr hx)
  · -- block diversity
    rw [ht_feed]
    intro i j hi hj hne hblk
    have hi' : i < s.feed.length + 1 := by
      simpa using hi
    have hj' : j < s.feed.length + 1 := by
      simpa using hj
    have hnew : ∀ h : s.feed.length < (s.feed ++ [item]).length,
        feedCreator ctx ((s.feed ++ [item]).get ⟨s.feed.length, h⟩) = some c := by
      intro h
      have : (s.feed ++ [item]).get ⟨s.feed.length, h⟩ = item := by
        simp
      rw [this]
      exact hcre
    by_cases hij : i < s.feed.length
    · by_cases hjj : j < s.feed.length
      · have := inv.h_div i j hij hjj hne hblk
        simp only [List.get_eq_getElem] at this ⊢
        rw [List.getElem_append_left hij, List.getElem_append_left hjj]
        exact this
      · -- j is the new item's position
        have hjlen : j = s.feed.length := by
          omega
        subst hjlen
        have hge : s.feed.length - s.creadores_por_ventana.length ≤ i :=
          hblock_low i hij hblk
        have hold : (s.feed ++ [item]).get
            ⟨i, by simpa using Nat.lt_succ_of_lt hij⟩ = s.feed.get ⟨i, hij⟩ := by
          simp only [List.get_eq_getElem]
          exact List.getElem_append_left hij
        intro heq
        rw [hnew _] at heq
        have : (s.feed ++ [item]).get ⟨i, by simpa using Nat.lt_succ_of_lt hij⟩ =
            s.feed.get ⟨i, hij⟩ := hold
        rw [this] at heq
        exact hsuffix_ne i hij hge heq
    · -- i is the new item's position
      have hilen : i = s.feed.length := by omega
      subst hilen
      have hjj : j < s.feed.length := by omega
      have hge : s.feed.length - s.creadores_por_ventana.length ≤ j :=
        hblock_low j hjj hblk.symm
      intro heq
      rw [hnew _] at heq
      have hold : (s.feed ++ [item]).get
          ⟨j, by simpa using Nat.lt_succ_of_lt hjj⟩ = s.feed.get ⟨j, hjj⟩ := by
        simp only [List.get_eq_getElem]
        exact List.getElem_append_left hjj
      rw [hold] at heq
      exact hsuffix_ne j hjj hge heq.symm
  · rw [ht_feed, ht_ids]
    intro it hit
    rcases List.mem_append.mp hit with hmem | hmem
    · exact (mem_pyAdd).mpr (Or.inl (inv.h_ids it hmem))
    · simp only [List.mem_singleton] at hmem
      subst hmem
      exact (mem_pyAdd).mpr (Or.inr hvid_item)
  · rw [ht_feed]
    rw [List.map_append]
    refine List.Nodup.append inv.h_ids_nodup (by simp) ?_
    intro x hx hx2
    simp only [List.map_cons, List.map_nil, List.mem_singleton] at hx2
    obtain ⟨it, hit, hxit⟩ := List.mem_map.mp hx
    subst hx2
    refine hid ?_
    rw [← hvid_item, ← hxit]
    exact inv.h_ids it hit
  · rw [ht_feed]
    intro it hit
    rcases List.mem_append.mp hit with hmem | hmem
    · exact inv.h_pools it hmem
    · simp only [List.mem_singleton] at hmem
      subst hmem
      rw [hvid_item]
      exact hpool

/-- Case analysis of a VMP/AU/NU slot body when no catalog row has id `0`:
either nothing is selected and the invariant-relevant state fields are
untouched, or a nonzero id from the primary or explore pool is selected, is
fresh, has a fresh creator, and exactly that creator is registered. -/
theorem slot_video_core_spec (ctx : AsmCtx) (Hv : ∀ r ∈ ctx.videos, r.id ≠ 0)
    (s : AsmState) (cb : Bool) (pool : List Int) (idx : Nat) :
    ((slot_video_core ctx s cb pool idx).2.2 = none ∧
      (slot_video_core ctx s cb pool idx).2.1.feed = s.feed ∧
      (slot_video_core ctx s cb pool idx).2.1.ids_usados = s.ids_usados ∧
      (slot_video_core ctx s cb pool idx).2.1.creadores_usados_en_feed =
        s.creadores_usados_en_feed ∧
      (slot_video_core ctx s cb pool idx).2.1.creadores_por_ventana =
        s.creadores_por_ventana) ∨
    (∃ v c, (slot_video_core ctx s cb pool idx).2.2 = some v ∧ v ≠ 0 ∧
      (v ∈ pool ∨ v ∈ ctx.pool_exploracion) ∧
      v ∉ s.ids_usados ∧
      video_a_creador ctx.videos v = some c ∧
      c ∉ s.creadores_usados_en_feed ∧
      (slot_video_core ctx s cb pool idx).2.1.feed = s.feed ∧
      (slot_video_core ctx s cb pool idx).2.1.ids_usados = s.ids_usados ∧
      (slot_video_core ctx s cb pool idx).2.1.creadores_usados_en_feed =
        pyAdd s.creadores_usados_en_feed c ∧
      (slot_video_core ctx s cb pool idx).2.1.creadores_por_ventana =
        s.creadores_por_ventana ++ [c]) := by
  rcases hr : walkPrimary ctx cb s (pool.drop idx) 0 with ⟨c1, _ | v⟩
  · -- the primary walk found nothing: fall back to the explore pool
    rcases hr2 : walkExplore ctx s (ctx.pool_exploracion.drop s.idx_explore)
      with ⟨c2, _ | v⟩
    · left
      refine ⟨?_, ?_, ?_, ?_, ?_⟩ <;>
        simp [slot_video_core, hr, hr2, optTruthy]
    · have hfacts := walkExplore_accept ctx s _ c2 v hr2
      obtain ⟨hnotid, c, hvc, hcset⟩ := acceptsExplore_facts hfacts.2
      have hvne : v ≠ 0 := by
        obtain ⟨rrow, hrmem, hrid, _⟩ := video_a_creador_mem hvc
        rw [← hrid]
        exact Hv rrow hrmem
      right
      refine ⟨v, c, ?_, hvne, Or.inr (List.drop_subset _ _ hfacts.1), hnotid,
        hvc, hcset, ?_, ?_, ?_, ?_⟩ <;>
        simp [slot_video_core, hr, hr2, optTruthy, registrar_video, hvc]
  · -- the primary walk accepted `v`
    have hfacts := walkPrimary_accept ctx cb s _ 0 c1 v hr
    obtain ⟨hnotid, c, hvc, hcset⟩ := acceptsPrimary_facts hfacts.2
    have hvne : v ≠ 0 := by
      obtain ⟨rrow, hrmem, hrid, _⟩ := video_a_creador_mem hvc
      rw [← hrid]
      exact Hv rrow hrmem
    right
    refine ⟨v, c, ?_, hvne, Or.inl (List.drop_subset _ _ hfacts.1), hnotid,
      hvc, hcset, ?_, ?_, ?_, ?_⟩ <;>
      simp [slot_video_core, hr, optTruthy, hvne, registrar_video, hvc]

/-- One slot of the assembly loop preserves the invariant, whatever the slot
label, provided no catalog or flow row carries id `0` (a `0` id would be
registered in the window but dropped by the falsy `if video_id:` append). -/
theorem procesar_slot_inv (ctx : AsmCtx) (Hv : ∀ r ∈ ctx.videos, r.id ≠ 0)
    (Hf : ∀ f ∈ ctx.flows, f.id ≠ 0) {s : AsmState} (inv : AsmInv ctx s)
    (tipo_slot : String) : AsmInv ctx (procesar_slot ctx s tipo_slot) := by
  simp only [procesar_slot]
  split_ifs with hlen hFW hVMP hAU hNU
  · exact inv
  · -- FW slot
    set w := ventana_diversidad s with hw
    have invw : AsmInv ctx w := ventana_inv inv
    rcases hr : walkFW ctx w (ctx.pool_flows.drop w.idx_flow) with ⟨cn, _ | v⟩
    · exact inv_unchanged invw rfl rfl rfl rfl
    · have hfacts := walkFW_accept ctx w _ cn v hr
      obtain ⟨hnotid, row, hfind, hrowset⟩ := acceptsFW_facts hfacts.2
      have hrowmem := flows_find_mem hfind
      have hvne : v ≠ 0 := by
        rw [← hrowmem.2]
        exact Hf row hrowmem.1
      show AsmInv ctx (agregar_al_feed ctx
        (registrar_flow ctx { w with idx_flow := w.idx_flow + cn } v) tipo_slot
        (some v) true)
      have hreg : registrar_flow ctx { w with idx_flow := w.idx_flow + cn } v =
          { w with
            idx_flow := w.idx_flow + cn
            creadores_usados_en_feed :=
              pyAdd w.creadores_usados_en_feed row.user_id
            creadores_por_ventana := w.creadores_por_ventana ++ [row.user_id] } := by
        unfold registrar_flow
        rw [hfind]
      rw [hreg]
      simp only [agregar_al_feed]
      rw [if_pos hvne]
      simp only [if_true]
      exact inv_append invw rfl rfl rfl rfl (construir_item_flow_vid ctx _ _ v)
        (by rw [feedCreator_item_flow, hfind]; rfl) hrowset hnotid
        (Or.inr (Or.inr (Or.inr (Or.inl (List.drop_subset _ _ hfacts.1)))))
  · -- VMP slot
    set w := ventana_diversidad s with hw
    have invw : AsmInv ctx w := ventana_inv inv
    set q := slot_video_core ctx w false ctx.pool_vmp w.idx_vmp with hq0
    have hspec := slot_video_core_spec ctx Hv w false ctx.pool_vmp w.idx_vmp
    rw [← hq0] at hspec
    rcases hspec with ⟨hnone, hfeed, hids, hset, hqueue⟩ |
      ⟨v, c, hsome, hvne, hvpool, hnotid, hvc, hcset, hfeed, hids, hset, hqueue⟩
    · rw [hnone]
      exact inv_unchanged invw hfeed hids hset hqueue
    · rw [hsome]
      have hstate : ({ q.2.1 with idx_vmp := q.1 } : AsmState) =
          { feed := w.feed
            ids_usados := w.ids_usados
            skills_usados := q.2.1.skills_usados
            creadores_usados_en_feed := pyAdd w.creadores_usados_en_feed c
            creadores_por_ventana := w.creadores_por_ventana ++ [c]
            idx_vmp := q.1
            idx_nu := q.2.1.idx_nu
            idx_au := q.2.1.idx_au
            idx_flow := q.2.1.idx_flow
            idx_explore := q.2.1.idx_explore } := by
        simp only [hfeed, hids, hset, hqueue]
      rw [hstate]
      simp only [agregar_al_feed]
      rw [if_pos hvne, if_neg (by decide)]
      refine inv_append invw rfl rfl rfl rfl (construir_item_video_vid ctx _ _ v)
        (by rw [feedCreator_item_video]; exact hvc) hcset hnotid ?_
      rcases hvpool with h | h
      · exact Or.inl h
      · exact Or.inr (Or.inr (Or.inr (Or.inr h)))
  · -- AU slot
    set w := ventana_diversidad s with hw
    have invw : AsmInv ctx w := ventana_inv inv
    set q := slot_video_core ctx w true ctx.pool_au w.idx_au with hq0
    have hspec := slot_video_core_spec ctx Hv w true ctx.pool_au w.idx_au
    rw [← hq0] at hspec
    rcases hspec with ⟨hnone, hfeed, hids, hset, hqueue⟩ |
      ⟨v, c, hsome, hvne, hvpool, hnotid, hvc, hcset, hfeed, hids, hset, hqueue⟩
    · rw [hnone]
      exact inv_unchanged invw hfeed hids hset hqueue
    · rw [hsome]
      have hstate : ({ q.2.1 with idx_au := q.1 } : AsmState) =
          { feed := w.feed
            ids_usados := w.ids_usados
            skills_usados := q.2.1.skills_usados
            creadores_usados_en_feed := pyAdd w.creadores_usados_en_feed c
            creadores_por_ventana := w.creadores_por_ventana ++ [c]
            idx_vmp := q.2.1.idx_vmp
            idx_nu := q.2.1.idx_nu
            idx_au := q.1
            idx_flow := q.2.1.idx_flow
            idx_explore := q.2.1.idx_explore } := by
        simp only [hfeed, hids, hset, hqueue]
      rw [hstate]
      simp only [agregar_al_feed]
      rw [if_pos hvne, if_neg (by decide)]
      refine inv_append invw rfl rfl rfl rfl (construir_item_video_vid ctx _ _ v)
        (by rw [feedCreator_item_video]; exact hvc) hcset hnotid ?_
      rcases hvpool with h | h
      · exact Or.inr (Or.inr (Or.inl h))
      · exact Or.inr (Or.inr (Or.inr (Or.inr h)))
  · -- NU slot
    set w := ventana_diversidad s with hw
    have invw : AsmInv ctx w := ventana_inv inv
    set q := slot_video_core ctx w true ctx.pool_nu w.idx_nu with hq0
    have hspec := slot_video_core_spec ctx Hv w true ctx.pool_nu w.idx_nu
    rw [← hq0] at hspec
    rcases hspec with ⟨hnone, hfeed, hids, hset, hqueue⟩ |
      ⟨v, c, hsome, hvne, hvpool, hnotid, hvc, hcset, hfeed, hids, hset, hqueue⟩
    · rw [hnone]
      exact inv_unchanged invw hfeed hids hset hqueue
    · rw [hsome]
      have hstate : ({ q.2.1 with idx_nu := q.1 } : AsmState) =
          { feed := w.feed
            ids_usados := w.ids_usados
            skills_usados := q.2.1.skills_usados
            creadores_usados_en_feed := pyAdd w.creadores_usados_en_feed c
            creadores_por_ventana := w.creadores_por_ventana ++ [c]
            idx_vmp := q.2.1.idx_vmp
            idx_nu := q.1
            idx_au := q.2.1.idx_au
            idx_flow := q.2.1.idx_flow
            idx_explore := q.2.1.idx_explore } := by
        simp only [hfeed, hids, hset, hqueue]
      rw [hstate]
      simp only [agregar_al_feed]
      rw [if_pos hvne, if_neg (by decide)]
      refine inv_append invw rfl rfl rfl rfl (construir_item_video_vid ctx _ _ v)
        (by rw [feedCreator_item_video]; exact hvc) hcset hnotid ?_
      rcases hvpool with h | h
      · exact Or.inr (Or.inl h)
      · exact Or.inr (Or.inr (Or.inr (Or.inr h)))
  · exact ventana_inv inv

/-- Folding the assembly loop over any slot sequence preserves the invariant. -/
theorem foldl_procesar_inv (ctx : AsmCtx) (Hv : ∀ r ∈ ctx.videos, r.id ≠ 0)
    (Hf : ∀ f ∈ ctx.flows, f.id ≠ 0) :
    ∀ (slots : List String) (s : AsmState), AsmInv ctx s →
      AsmInv ctx (slots.foldl (procesar_slot ctx) s) := by
  intro slots
  induction slots with
  | nil =>
      intro s h
      simpa using h
  | cons a rest ih =>
      intro s h
      exact ih _ (procesar_slot_inv ctx Hv Hf h a)

set_option maxRecDepth 8000 in
set_option maxHeartbeats 2000000 in
/-- The returned feed is the feed of the final assembler state. -/
theorem generar_feed_eq (videos : List VideoRow) (flows : List FlowRow)
    (interactions : List Interaction) (connections : List Connection)
    (lista_negra : List String) (env : ScrollEnv) (user_id : Int)
    (n_videos : Nat) (videos_excluidos : List Int) (incluir_fw : Bool) :
    (generar_scroll_infinito videos flows interactions connections lista_negra
      env user_id n_videos videos_excluidos incluir_fw).1 =
    (scrollFinalState videos flows interactions connections lista_negra env
      user_id videos_excluidos incluir_fw).feed := by
  simp only [generar_scroll_infinito]

/-- The final assembler state unfolded to the slot fold. -/
theorem scrollFinalState_eq_foldl (videos : List VideoRow) (flows : List FlowRow)
    (interactions : List Interaction) (connections : List Connection)
    (lista_negra : List String) (env : ScrollEnv) (user_id : Int)
    (videos_excluidos : List Int) (incluir_fw : Bool) :
    scrollFinalState videos flows interactions connections lista_negra env
      user_id videos_excluidos incluir_fw =
    ((List.replicate (VIDEOS_POR_RESPUESTA / PATRON_FEED.length + 1)
      PATRON_FEED).flatten).foldl
      (procesar_slot (scrollCtx videos flows interactions connections
        lista_negra env user_id videos_excluidos incluir_fw)) asmInit :=
  rfl

theorem mem_sample_of_mem {l : List α} {idxs : List Nat} {y : α}
    (h : y ∈ idxs.filterMap (fun i => l.get? i)) : y ∈ l := by
  obtain ⟨i, _, hget⟩ := List.mem_filterMap.mp h
  exact List.get?_mem hget

/-- Every id the VMP selector returns passes its exclusion filter. -/
theorem seleccionar_vmp_not_excluded {videos : List VideoRow} {env : ScrollEnv}
    {ids_excluir : List Int} {prefs : UserPrefs} {cu : List Int} {n : Nat}
    {v : Int} (h : v ∈ seleccionar_vmp_rapido videos env ids_excluir prefs cu n) :
    v ∉ ids_excluir := by
  simp only [seleccionar_vmp_rapido] at h
  split_ifs at h
  all_goals first
  | exact absurd h (List.not_mem_nil v)
  | · obtain ⟨row, hrow, hid⟩ := List.mem_map.mp h
      have hmem := mem_nlargestBy _ _ _ _ (mem_sample_of_mem hrow)
      have hfilt := (List.mem_filter.mp hmem).2
      simp only [Bool.and_eq_true, decide_eq_true_eq] at hfilt
      rw [← hid]
      first
      | exact hfilt.1.1
      | exact hfilt.1

/-- Every id the NU selector returns passes its exclusion filter. -/
theorem seleccionar_nu_not_excluded {videos : List VideoRow} {env : ScrollEnv}
    {ids_excluir : List Int} {prefs : UserPrefs} {cu : List Int} {n : Nat}
    {v : Int} (h : v ∈ seleccionar_nu_rapido videos env ids_excluir prefs cu n) :
    v ∉ ids_excluir := by
  simp only [seleccionar_nu_rapido] at h
  split_ifs at h
  all_goals first
  | exact absurd h (List.not_mem_nil v)
  | · obtain ⟨row, hrow, hid⟩ := List.mem_map.mp h
      have hmem : row ∈ videos.filter (fun v =>
          decide (v.id ∉ ids_excluir) && decide (v.user_id ∉ cu) &&
            decide (v.days_since_creation ≤ 45)) := by
        first
        | exact mem_nlargestBy _ _ _ _ (mem_sample_of_mem hrow)
        | exact mem_nlargestBy _ _ _ _ hrow
      have hfilt := (List.mem_filter.mp hmem).2
      simp only [Bool.and_eq_true, decide_eq_true_eq] at hfilt
      rw [← hid]
      exact hfilt.1.1

/-- Every id the AU selector returns passes its exclusion filter. -/
theorem seleccionar_au_not_excluded {videos : List VideoRow} {env : ScrollEnv}
    {ids_excluir : List Int} {prefs : UserPrefs} {cu : List Int} {n : Nat}
    {v : Int} (h : v ∈ seleccionar_au_rapido videos env ids_excluir prefs cu n) :
    v ∉ ids_excluir := by
  simp only [seleccionar_au_rapido] at h
  split_ifs at h
  all_goals first
  | exact absurd h (List.not_mem_nil v)
  | · obtain ⟨row, hrow, hid⟩ := List.mem_map.mp h
      have hmem := mem_nlargestBy _ _ _ _ hrow
      have hfilt := (List.mem_filter.mp hmem).2
      simp only [Bool.and_eq_true, decide_eq_true_eq] at hfilt
      rw [← hid]
      exact hfilt.1

/-- Every id the FW selector returns passes its exclusion filter. -/
theorem seleccionar_flows_not_excluded {flows : List FlowRow} {env : ScrollEnv}
    {ids_excluir : List Int} {cu : List Int} {n : Nat} {v : Int}
    (h : v ∈ seleccionar_flows flows env ids_excluir cu n) :
    v ∉ ids_excluir := by
  simp only [seleccionar_flows] at h
  split_ifs at h
  all_goals first
  | exact absurd h (List.not_mem_nil v)
  | · obtain ⟨row, hrow, hid⟩ := List.mem_map.mp h
      have hmem := mem_nlargestBy _ _ _ _ hrow
      have hfilt := (List.mem_filter.mp hmem).2
      simp only [Bool.and_eq_true, decide_eq_true_eq] at hfilt
      rw [← hid]
      exact hfilt.1

/-- Every id the EXPLORE selector returns passes its exclusion filter. -/
theorem seleccionar_explore_not_excluded {videos : List VideoRow}
    {env : ScrollEnv} {ids_excluir : List Int} {cu : List Int} {n : Nat}
    {v : Int} (h : v ∈ seleccionar_boost_exploracion videos env ids_excluir cu n) :
    v ∉ ids_excluir := by
  simp only [seleccionar_boost_exploracion] at h
  split_ifs at h
  all_goals first
  | exact absurd h (List.not_mem_nil v)
  | · obtain ⟨row, hrow, hid⟩ := List.mem_map.mp h
      have hmem := mem_sample_of_mem hrow
      have hfilt := (List.mem_filter.mp hmem).2
      simp only [Bool.and_eq_true, decide_eq_true_eq] at hfilt
      rw [← hid]
      exact hfilt.1

/-- Every id in any of the five request pools avoids the request's exclusion
set (seen ∪ caller-excluded). -/
theorem scrollCtx_pools_not_excluded (videos : List VideoRow)
    (flows : List FlowRow) (interactions : List Interaction)
    (connections : List Connection) (lista_negra : List String)
    (env : ScrollEnv) (user_id : Int) (videos_excluidos : List Int)
    (incluir_fw : Bool) {v : Int}
    (h : inAnyPool (scrollCtx videos flows interactions connections lista_negra
      env user_id videos_excluidos incluir_fw) v) :
    v ∉ scrollIdsExcluir interactions connections env user_id videos_excluidos := by
  simp only [scrollCtx, inAnyPool] at h
  simp only [scrollIdsExcluir]
  rcases h with h | h | h | h | h
  · exact seleccionar_vmp_not_excluded h
  · exact seleccionar_nu_not_excluded h
  · intro hexcl
    exact seleccionar_au_not_excluded h
      ((mem_pyUnion _ _ _).mpr (Or.inl ((mem_pyUnion _ _ _).mpr (Or.inl hexcl))))
  · rcases hfw : incluir_fw with _ | _
    · rw [hfw] at h
      simp at h
    · rw [hfw, if_pos rfl] at h
      exact seleccionar_flows_not_excluded h
  · intro hexcl
    exact seleccionar_explore_not_excluded h
      ((mem_pyUnion _ _ _).mpr (Or.inl ((mem_pyUnion _ _ _).mpr
        (Or.inl ((mem_pyUnion _ _ _).mpr (Or.inl hexcl))))))

/-! ### Concrete request fixture for the assembler claims -/

/-- A catalog row with the given id, creator, age and view count; every other
column is empty or zero. -/
def mkVid (id uid days views : Int) : VideoRow :=
  { id := id, user_id := uid, video := "", description := "", creator_name := ""
    city := "", days_since_creation := days, views := views, avg_rating := 0
    rating_count := 0, connection_count := 0, like_count := 0
    exhibited_count := 0, video_skills := [], video_knowledges := []
    video_tools := [], video_languages := [], score_engagement := 0
    score_temporal := 0, score_calidad := 0, score_popularidad := 0
    rareza_skills := 0 }

/-- A request environment with all randomness, bandit scores and similarity
features zero; the VMP weighted sample takes the top rows in order. -/
def c1Env : ScrollEnv :=
  { ucb_vmp := fun _ => 0, ucb_nu := fun _ => 0, ucb_au := fun _ => 0
    sim_skills := fun _ => 0, nu_noise := fun _ => 0, flow_noise := fun _ => 0
    vmp_sample_idx := [0, 1, 2, 3, 4], nu_sample_idx := []
    explore_sample_idx := []
    attrs := ⟨[], [], [], [], [], fun _ => 0⟩
    influencia_social := fun _ => 0, execution_time := 0
    stats_vmp := ⟨0, 0, 0⟩, stats_au := ⟨0, 0, 0⟩, stats_nu := ⟨0, 0, 0⟩ }

/-- Thirteen videos: five quality-gated rows (VMP pool, creators 201–205), six
older ungated rows (AU pool, creators 301–305 with 305 twice), two recent rows
(NU pool, creators 401–402). -/
def c1Videos : List VideoRow :=
  [mkVid 1 201 100 100, mkVid 2 202 100 100, mkVid 3 203 100 100,
   mkVid 4 204 100 100, mkVid 5 205 100 100,
   mkVid 11 301 100 0, mkVid 12 302 100 0, mkVid 13 303 100 0,
   mkVid 14 304 100 0, mkVid 15 305 100 0, mkVid 16 305 100 0,
   mkVid 21 401 20 0, mkVid 22 402 20 0]

/-- The fixture's request context (no flows, no blacklist, no history, no
caller exclusions, `incluir_fw = False`). -/
def c1Ctx : AsmCtx :=
  scrollCtx c1Videos [] [] [] [] c1Env 1 [] false

/-- The feed the fixture request returns. -/
def c1Feed : List FeedItem :=
  (generar_scroll_infinito c1Videos [] [] [] [] c1Env 1 0 [] false).1

set_option maxRecDepth 100000 in
set_option maxHeartbeats 2000000 in
/-- C1, counterexample: the returned feed of the fixture request places
creator `305` at positions 12 and 13 (consecutive!): the window maintenance
clears the used-creator set at every multiple of 12, so creators repeat across
aligned-block boundaries and the claimed *sliding*-window diversity fails. -/
theorem c1_counterexample_sliding_window :
    ¬ slidingWindowDiverse c1Ctx c1Feed := by
  intro h
  have heq : feedCreator c1Ctx (c1Feed.get ⟨11, by with_unfolding_all decide⟩) =
      feedCreator c1Ctx (c1Feed.get ⟨12, by with_unfolding_all decide⟩) := by
    with_unfolding_all decide
  exact h 11 12 _ _ (by decide) (by decide) (by decide) heq

/-- C1 (amended): in every feed returned by `generar_scroll_infinito` (no
catalog or flow row with id `0`), creator ids are pairwise distinct within
every *aligned* block of 12 consecutive positions (positions `i`, `j` with
`i / 12 = j / 12`) — the block-wise guarantee the every-12-items window reset
actually enforces, in place of the claimed sliding-window guarantee. -/
theorem c1_block_diversity_amended (videos : List VideoRow)
    (flows : List FlowRow) (interactions : List Interaction)
    (connections : List Connection) (lista_negra : List String)
    (env : ScrollEnv) (user_id : Int) (n_videos : Nat)
    (videos_excluidos : List Int) (incluir_fw : Bool)
    (Hv : ∀ r ∈ videos, r.id ≠ 0) (Hf : ∀ f ∈ flows, f.id ≠ 0) :
    blockDiverse (scrollCtx videos flows interactions connections lista_negra
      env user_id videos_excluidos incluir_fw)
      (generar_scroll_infinito videos flows interactions connections
        lista_negra env user_id n_videos videos_excluidos incluir_fw).1 := by
  rw [generar_feed_eq, scrollFinalState_eq_foldl]
  exact (foldl_procesar_inv _ Hv Hf _ _ (asmInit_inv _)).h_div

theorem c1_block_diversity_amended_witness : blockDiverse c1Ctx c1Feed :=
  c1_block_diversity_amended c1Videos [] [] [] [] c1Env 1 0 [] false
    (by decide) (by decide)

/-- No feed item id lies in the caller's excluded list or in the user's seen
set (the item ids of the user's past interactions). -/
def exclusionHonored (videos : List VideoRow) (flows : List FlowRow)
    (interactions : List Interaction) (connections : List Connection)
    (lista_negra : List String) (env : ScrollEnv) (user_id : Int)
    (n_videos : Nat) (videos_excluidos : List Int) (incluir_fw : Bool) : Prop :=
  ∀ it ∈ (generar_scroll_infinito videos flows interactions connections
      lista_negra env user_id n_videos videos_excluidos incluir_fw).1,
    it.video_id ∉ videos_excluidos ∧
      it.video_id ∉ (obtener_preferencias_usuario_rapido interactions
        connections env.influencia_social env.attrs user_id).vistos

/-- C2: no item id in a returned feed belongs to the union of the caller's
excluded ids and the user's past-interaction ids — every candidate pool is
filtered through that union (given ids `≠ 0`, under which every appended item
comes from a pool). -/
theorem c2_exclusion_honored (videos : List VideoRow) (flows : List FlowRow)
    (interactions : List Interaction) (connections : List Connection)
    (lista_negra : List String) (env : ScrollEnv) (user_id : Int)
    (n_videos : Nat) (videos_excluidos : List Int) (incluir_fw : Bool)
    (Hv : ∀ r ∈ videos, r.id ≠ 0) (Hf : ∀ f ∈ flows, f.id ≠ 0) :
    exclusionHonored videos flows interactions connections lista_negra env
      user_id n_videos videos_excluidos incluir_fw := by
  intro it hit
  rw [generar_feed_eq, scrollFinalState_eq_foldl] at hit
  have hpool := (foldl_procesar_inv _ Hv Hf _ _ (asmInit_inv _)).h_pools it hit
  have hni := scrollCtx_pools_not_excluded videos flows interactions connections
    lista_negra env user_id videos_excluidos incluir_fw hpool
  simp only [scrollIdsExcluir] at hni
  refine ⟨fun hmem => hni ?_, fun hmem => hni ?_⟩
  · by_cases he : videos_excluidos = []
    · subst he
      exact absurd hmem (List.not_mem_nil _)
    · have hne : videos_excluidos.isEmpty = false := by
        cases videos_excluidos
        · exact absurd rfl he
        · rfl
      rw [if_neg (by simp [hne])]
      exact (mem_pyUnion _ _ _).mpr (Or.inr ((mem_pySet _ _).mpr hmem))
  · by_cases he : videos_excluidos.isEmpty = true
    · rw [if_pos he]
      exact hmem
    · rw [if_neg he]
      exact (mem_pyUnion _ _ _).mpr (Or.inl hmem)

theorem c2_exclusion_honored_witness :
    exclusionHonored c1Videos [] [] [] [] c1Env 1 0 [] false :=
  c2_exclusion_honored c1Videos [] [] [] [] c1Env 1 0 [] false
    (by decide) (by decide)

/-- C3: the `video_id`s of a returned feed are pairwise distinct (no resume or
flow is returned twice within one request), given no catalog or flow row
carries id `0`. -/
theorem c3_no_repeat_ids (videos : List VideoRow) (flows : List FlowRow)
    (interactions : List Interaction) (connections : List Connection)
    (lista_negra : List String) (env : ScrollEnv) (user_id : Int)
    (n_videos : Nat) (videos_excluidos : List Int) (incluir_fw : Bool)
    (Hv : ∀ r ∈ videos, r.id ≠ 0) (Hf : ∀ f ∈ flows, f.id ≠ 0) :
    ((generar_scroll_infinito videos flows interactions connections
      lista_negra env user_id n_videos videos_excluidos incluir_fw).1.map
        (fun it => it.video_id)).Nodup := by
  rw [generar_feed_eq, scrollFinalState_eq_foldl]
  exact (foldl_procesar_inv _ Hv Hf _ _ (asmInit_inv _)).h_ids_nodup

theorem c3_no_repeat_ids_witness :
    ((generar_scroll_infinito c1Videos [] [] [] [] c1Env 1 0 [] false).1.map
      (fun it => it.video_id)).Nodup :=
  c3_no_repeat_ids c1Videos [] [] [] [] c1Env 1 0 [] false
    (by decide) (by decide)

/-! ### Claims C9 and C10 -/

/-- C9 (amended): in the flows-only entry point the connection bonus is dead
code — the preferences dict never holds a `'conexiones'` key, so
`prefs_usuario.get('conexiones', set())` is always the empty set and every
flow scores `max(0, (90 − days)/90·30)` plus its uniform draw, independently
of the user's connections.  The selection equals the bonus-free pipeline on
all inputs. -/
theorem c9_flows_relevance_score (flows : List FlowRow)
    (lista_negra : List String) (flows_vistos : List Int)
    (interactions : List Interaction) (connections : List Connection)
    (influencia_social : Int → ℚ) (attrs : SampledAttrs) (user_id : Int)
    (draw : Int → ℚ) (n : Nat) (excluded_ids : List Int) :
    seleccionar_flows_para_usuario flows lista_negra flows_vistos interactions
      connections influencia_social attrs user_id draw n excluded_ids =
    flowsOnlyAmendedSelection flows lista_negra flows_vistos draw n
      excluded_ids := by
  unfold seleccionar_flows_para_usuario flowsOnlyAmendedSelection
  have hpref : ∀ prefs : UserPrefs, prefsGetIntSet prefs "conexiones" = [] := by
    intro prefs
    rfl
  simp only [hpref, List.not_mem_nil, if_false]

/-- Two candidate flows for the counterexample: flow `100` by creator `7`
(80 days old), flow `101` by creator `8` (new). -/
def c9Flows : List FlowRow :=
  [⟨100, 7, "", "", "", "", "", "", 80⟩, ⟨101, 8, "", "", "", "", "", "", 0⟩]

/-- User 1 has one interaction, so preferences are built (not the empty
default). -/
def c9Inter : List Interaction := [⟨1, 500⟩]

/-- User 1 is connected to creator 7. -/
def c9Conn : List Connection := [⟨1, 7⟩]

/-- Empty sampled attributes for the counterexample. -/
def c9Attrs : SampledAttrs := ⟨[], [], [], [], [], fun _ => 0⟩

/-- C9, counterexample: with user 1 connected to creator 7 and all uniform
draws zero, the claimed scoring (a `+30` bonus for flows of connected
creators) returns flow `100` (score `10/3 + 30`), but the code returns flow
`101` (the bonus never fires, so `30 > 10/3`). -/
theorem c9_counterexample_connection_bonus :
    seleccionar_flows_para_usuario c9Flows [] [] c9Inter c9Conn (fun _ => 0)
        c9Attrs 1 (fun _ => 0) 1 [] ≠
      c9ClaimSelection c9Flows [] [] c9Inter c9Conn (fun _ => 0)
        c9Attrs 1 (fun _ => 0) 1 [] := by
  with_unfolding_all decide

/-- C10: `generar_scroll_infinito` ignores its `n_videos` argument — the
source overwrites it with `self.videos_por_respuesta = 24` before use, so two
calls differing only in `n_videos` return identical feeds and metrics. -/
theorem c10_n_videos_ignored (videos : List VideoRow) (flows : List FlowRow)
    (interactions : List Interaction) (connections : List Connection)
    (lista_negra : List String) (env : ScrollEnv) (user_id : Int)
    (n1 n2 : Nat) (videos_excluidos : List Int) (incluir_fw : Bool) :
    generar_scroll_infinito videos flows interactions connections lista_negra
      env user_id n1 videos_excluidos incluir_fw =
    generar_scroll_infinito videos flows interactions connections lista_negra
      env user_id n2 videos_excluidos incluir_fw := by
  simp only [generar_scroll_infinito]

end RecSys
